import Mathlib

set_option maxRecDepth 10000

/-!
Shallow embedding of the `ai-sdk-client` package: the streaming
chat-completion orchestrator `AiSdkService.streamMessage`
(src/main/ai-sdk.service.ts), the error classifier `AiSdkError`
(src/errors/ai-sdk.error.ts) and the schema conversion utility
`jsonSchemaToZod` (src/utils/json-schema-to-zod.ts).

JavaScript runtime values are modelled by `JValue`; JavaScript object
semantics (property access, `Object.entries`, `Object.fromEntries`,
truthiness, `Array.prototype.includes`, template-literal stringification)
are modelled by explicit helper functions.  Sites where the JavaScript
code can throw a `TypeError` are modelled with `Except`.
-/

namespace AiSdk

/-- A JavaScript runtime value.  Objects are insertion-ordered field lists;
a well-formed JavaScript object has pairwise-distinct keys. -/
inductive JValue : Type where
  | null : JValue
  | undefined : JValue
  | bool (b : Bool) : JValue
  | num (n : Int) : JValue
  | str (s : String) : JValue
  | arr (elems : List JValue) : JValue
  | obj (fields : List (String × JValue)) : JValue
deriving Repr

/-- Property read on a field list: `fields[key]`, `undefined` when absent. -/
def jsGet (fields : List (String × JValue)) (key : String) : JValue :=
  match fields.lookup key with
  | some v => v
  | none => JValue.undefined

/-- JavaScript truthiness of a value (`NaN` is not modelled). -/
def JValue.truthy : JValue → Bool
  | .null => false
  | .undefined => false
  | .bool b => b
  | .num n => n != 0
  | .str s => s != ""
  | .arr _ => true
  | .obj _ => true

/-- `typeof v === "object"` (true for objects, arrays and `null`). -/
def JValue.typeofObject : JValue → Bool
  | .null => true
  | .obj _ => true
  | .arr _ => true
  | _ => false

/-- Is the value the string `s`?  Models `v === "s"` for a string literal. -/
def JValue.isStr : JValue → String → Bool
  | .str s, t => s == t
  | _, _ => false

/-- `v.key`: property access that throws a `TypeError` on `null` and
`undefined`; on primitives the properties we ever read are absent. -/
def jsGetProp : JValue → String → Except String JValue
  | .null, key => .error ("TypeError: Cannot read properties of null (reading " ++ key ++ ")")
  | .undefined, key => .error ("TypeError: Cannot read properties of undefined (reading " ++ key ++ ")")
  | .obj fields, key => .ok (jsGet fields key)
  | _, _ => .ok JValue.undefined

/-- `v?.key`: optional-chained property access, `undefined` instead of a throw. -/
def jsGetPropOpt : JValue → String → JValue
  | .null, _ => JValue.undefined
  | .undefined, _ => JValue.undefined
  | .obj fields, key => jsGet fields key
  | _, _ => JValue.undefined

/-- `Object.entries(v)` for a truthy argument: fields of an object,
index/element pairs of an array or a string, `[]` for other primitives. -/
def jsEntries : JValue → List (String × JValue)
  | .obj fields => fields
  | .arr xs => xs.enum.map (fun p => (toString p.1, p.2))
  | .str s => s.toList.enum.map (fun p => (toString p.1, JValue.str (String.singleton p.2)))
  | _ => []

/-- Does the character list start with the given run? -/
def leadRun : List Char → List Char → Bool
  | [], _ => true
  | _ :: _, [] => false
  | k :: ks, c :: cs => k == c && leadRun ks cs

/-- Does the character list contain the given run somewhere? -/
def containsRun (ks : List Char) : List Char → Bool
  | [] => leadRun ks []
  | c :: cs => leadRun ks (c :: cs) || containsRun ks cs

/-- `a.includes(b)` for strings: substring containment. -/
def strContains (s key : String) : Bool :=
  containsRun key.toList s.toList

/-- ECMAScript `String.prototype.trim`: strip leading and trailing
whitespace (the common whitespace characters). -/
def isJsWhitespace (c : Char) : Bool :=
  c == ' ' || c == '\t' || c == '\n' || c == '\r'

/-- `s.trim()`. -/
def jsTrim (s : String) : String :=
  String.mk (((s.toList.dropWhile isJsWhitespace).reverse.dropWhile isJsWhitespace).reverse)

/-- `v.includes(key)` for a string `key`: defined on arrays (SameValueZero
membership — a string key can only equal string elements) and strings
(substring test); a `TypeError` on anything else. -/
def jsIncludes : JValue → String → Except String Bool
  | .arr xs, key => .ok (xs.any (fun x => x.isStr key))
  | .str s, key => .ok (strContains s key)
  | _, _ => .error "TypeError: required.includes is not a function"

end AiSdk

namespace AiSdk

/-! ### The zod validators built by `jsonSchemaToZod`

`jsonSchemaToZod` only ever returns `z.object(shape).passthrough()`
where each shape entry is `z.string()`, `z.number()`, `z.boolean()`,
`z.array(z.string() | z.number() | z.unknown())` or `z.unknown()`,
possibly wrapped once in `.optional()`; the types below model exactly
that grammar, and the `...Accepts` functions model the success of zod
v3's `safeParse` on it (`z.unknown()` and `.optional()` accept
`undefined`, so a declared key whose schema accepts `undefined` may be
missing; `.passthrough()` keeps undeclared keys instead of rejecting
them). -/

/-- The element validator of a generated `z.array(...)`. -/
inductive ZodItem : Type where
  | string : ZodItem
  | number : ZodItem
  | unknown : ZodItem
deriving Repr, DecidableEq

/-- The validator generated for one declared property, before
`.optional()`. -/
inductive ZodBase : Type where
  | string : ZodBase
  | number : ZodBase
  | boolean : ZodBase
  | array (item : ZodItem) : ZodBase
  | unknown : ZodBase
deriving Repr, DecidableEq

/-- One declared property validator; `opt = true` when `.optional()` was
applied (the key was not in the `required` list). -/
structure ZodField : Type where
  base : ZodBase
  opt : Bool
deriving Repr, DecidableEq

/-- The validator returned by `jsonSchemaToZod`:
`z.object(shape).passthrough()`. -/
structure ZodObject : Type where
  shape : List (String × ZodField)
deriving Repr, DecidableEq

/-- `safeParse` success of an element validator. -/
def zodItemAccepts : ZodItem → JValue → Bool
  | .string, v => match v with | .str _ => true | _ => false
  | .number, v => match v with | .num _ => true | _ => false
  | .unknown, _ => true

/-- `safeParse` success of a property validator before `.optional()`. -/
def zodBaseAccepts : ZodBase → JValue → Bool
  | .string, v => match v with | .str _ => true | _ => false
  | .number, v => match v with | .num _ => true | _ => false
  | .boolean, v => match v with | .bool _ => true | _ => false
  | .array item, v =>
      match v with
      | .arr xs => xs.all (fun x => zodItemAccepts item x)
      | _ => false
  | .unknown, _ => true

/-- `safeParse` success of a declared property validator (an optional
field accepts a missing/`undefined` value). -/
def zodFieldAccepts (f : ZodField) (v : JValue) : Bool :=
  if f.opt then
    match v with
    | .undefined => true
    | v => zodBaseAccepts f.base v
  else zodBaseAccepts f.base v

/-- `safeParse` success of the produced object validator: the input must
be a plain object, every declared key must parse against the (possibly
absent) field, and undeclared keys pass through. -/
def zodObjectAccepts (z : ZodObject) (v : JValue) : Bool :=
  match v with
  | .obj fields => z.shape.all (fun p => zodFieldAccepts p.2 (jsGet fields p.1))
  | _ => false

/-- JavaScript object assignment `o[k] = v` on an insertion-ordered
association list: overwrite in place when the key exists (keeping the
original key position), append otherwise. -/
def assocInsert {α : Type} (fields : List (String × α)) (k : String) (v : α) :
    List (String × α) :=
  if fields.any (fun p => p.1 = k) then
    fields.map (fun p => if p.1 = k then (k, v) else p)
  else
    fields ++ [(k, v)]

/-- The body of the `for (const [key, propSchema] of Object.entries(properties))`
loop (lines 18-57): the `switch` on `propSchema.type` (a `TypeError` when
`propSchema` is `null`/`undefined`), the optional-chained `items` lookup,
the `required.includes(key)` test (a `TypeError` when `required` is a
truthy non-array non-string), and the `zodShape[key] = zodType`
assignment. -/
def jsonSchemaToZodStep (required : JValue) (acc : List (String × ZodField))
    (entry : String × JValue) : Except String (List (String × ZodField)) := do
  let key := entry.1
  let propSchema := entry.2
  let pty ← jsGetProp propSchema "type"
  let zodType ←
    if pty.isStr "string" then
      pure ZodBase.string
    else if pty.isStr "number" then
      pure ZodBase.number
    else if pty.isStr "boolean" then
      pure ZodBase.boolean
    else if pty.isStr "array" then do
      let items ← jsGetProp propSchema "items"
      let itemsTy := jsGetPropOpt items "type"
      if itemsTy.isStr "string" then
        pure (ZodBase.array ZodItem.string)
      else if itemsTy.isStr "number" then
        pure (ZodBase.array ZodItem.number)
      else
        pure (ZodBase.array ZodItem.unknown)
    else
      pure ZodBase.unknown
  let isReq ← jsIncludes required key
  pure (assocInsert acc key { base := zodType, opt := !isReq : ZodField })

/-- `src/utils/json-schema-to-zod.ts`, `jsonSchemaToZod`.  The input is an
arbitrary runtime value (the TypeScript annotation
`Record<string, unknown> | undefined` is not enforced at runtime; the
package's own tests pass `null` and strings).  The reads of
`schema.type`, `schema.properties` and `schema.required` use the
non-throwing access: the guard has already ensured `schema` is a truthy
object, on which property access cannot throw.  `Except.error` models
the two reachable `TypeError` sites inside the loop: reading `.type` of
a `null`/`undefined` property schema, and calling `.includes` on a
truthy `required` value that is neither an array nor a string. -/
def jsonSchemaToZod (schema : JValue) : Except String ZodObject :=
  if !schema.truthy || !schema.typeofObject then
    Except.ok { shape := [] }
  else
    let ty := jsGetPropOpt schema "type"
    let props := jsGetPropOpt schema "properties"
    if ty.isStr "object" && props.truthy then
      let requiredRaw := jsGetPropOpt schema "required"
      let required := if requiredRaw.truthy then requiredRaw else JValue.arr []
      match (jsEntries props).foldlM (jsonSchemaToZodStep required) [] with
      | .error e => .error e
      | .ok zodShape => .ok { shape := zodShape }
    else
      .ok { shape := [] }

/-- The property validator the loop body computes for one declared
property, spelled as a function of the property schema: the recognized
`type` strings map to their zod types, everything else to `z.unknown()`. -/
def propBaseOf (propSchema : JValue) : ZodBase :=
  let pty := jsGetPropOpt propSchema "type"
  if pty.isStr "string" then ZodBase.string
  else if pty.isStr "number" then ZodBase.number
  else if pty.isStr "boolean" then ZodBase.boolean
  else if pty.isStr "array" then
    let itemsTy := jsGetPropOpt (jsGetPropOpt propSchema "items") "type"
    if itemsTy.isStr "string" then ZodBase.array ZodItem.string
    else if itemsTy.isStr "number" then ZodBase.array ZodItem.number
    else ZodBase.array ZodItem.unknown
  else ZodBase.unknown

/-- The shape entry for one declared property: its base validator, made
optional exactly when the key is not in the `required` array. -/
def mkPropField (reqList : List JValue) (p : String × JValue) : ZodField :=
  { base := propBaseOf p.2, opt := !(reqList.any (fun x => x.isStr p.1)) }

/-- Spec-side acceptance predicate for one declared property, written
from the spec's words (its §1/§8 description of the converter): a
declared property of recognized type string/number/boolean/array rejects
exactly when it is present with a mismatching runtime type (for a typed
array: a non-array, or an element of the wrong declared item type) or
when it is required and missing; a declared property of unrecognized
type never rejects. -/
def specPropertyAccepts (reqList : List JValue) (o : List (String × JValue))
    (key : String) (propSchema : JValue) : Bool :=
  let declared := jsGetPropOpt propSchema "type"
  let isRequired := reqList.any (fun x => x.isStr key)
  let v := jsGet o key
  if declared.isStr "string" then
    match v with
    | .undefined => !isRequired
    | .str _ => true
    | _ => false
  else if declared.isStr "number" then
    match v with
    | .undefined => !isRequired
    | .num _ => true
    | _ => false
  else if declared.isStr "boolean" then
    match v with
    | .undefined => !isRequired
    | .bool _ => true
    | _ => false
  else if declared.isStr "array" then
    let itemsDeclared := jsGetPropOpt (jsGetPropOpt propSchema "items") "type"
    match v with
    | .undefined => !isRequired
    | .arr xs =>
        if itemsDeclared.isStr "string" then
          xs.all (fun x => match x with | .str _ => true | _ => false)
        else if itemsDeclared.isStr "number" then
          xs.all (fun x => match x with | .num _ => true | _ => false)
        else true
    | _ => false
  else true

/-- A schema whose `required` field is a truthy non-array non-string:
`{type: "object", properties: {a: {type: "string"}}, required: 1}`. -/
def badRequiredSchema : JValue :=
  JValue.obj [("type", JValue.str "object"),
    ("properties", JValue.obj [("a", JValue.obj [("type", JValue.str "string")])]),
    ("required", JValue.num 1)]

/-! ### Request data model (src/types/ai-sdk.types.ts) -/

/-- `MessageType`: the kind of a chat history entry. -/
inductive MessageType : Type where
  | user : MessageType
  | copilot : MessageType
deriving Repr, DecidableEq

/-- A conversation-history entry (only the fields `streamMessage` reads). -/
structure ChatMessage : Type where
  type : MessageType
  text : String
deriving Repr, DecidableEq

/-- A tool declaration.  `parameters` is an arbitrary runtime value: the
TypeScript type says `Record<string, unknown>`, but the package's tests
also omit it (`undefined`). -/
structure ToolDefinition : Type where
  name : String
  description : String
  parameters : JValue
deriving Repr

/-- `SendMessageParams` (generic fields are irrelevant to the logic).
`conversationHistory = none` models an absent argument, defaulted to `[]`. -/
structure SendMessageParams : Type where
  userId : String
  text : String
  conversationHistory : Option (List ChatMessage) := none
  systemPrompt : Option String := none
  tools : Option (List ToolDefinition) := none
  contextData : Option (List (String × JValue)) := none

/-! ### Assembled prompt (the `CoreMessage[]` built in lines 35-79) -/

/-- The role of an assembled message. -/
inductive Role : Type where
  | user : Role
  | assistant : Role
  | tool : Role
deriving Repr, DecidableEq

/-- A `ToolCallPart` as pushed for pre-fetched context data. -/
structure ToolCallPart : Type where
  toolCallId : String
  toolName : String
  args : List (String × JValue)
deriving Repr

/-- A `tool-result` content part. -/
structure ToolResultPart : Type where
  toolCallId : String
  toolName : String
  result : JValue
deriving Repr

/-- Content of an assembled `CoreMessage`: plain text, a list of tool
calls, or a list of tool results. -/
inductive MessageContent : Type where
  | text (s : String) : MessageContent
  | toolCalls (parts : List ToolCallPart) : MessageContent
  | toolResults (parts : List ToolResultPart) : MessageContent
deriving Repr

/-- An assembled message. -/
structure CoreMessage : Type where
  role : Role
  content : MessageContent
deriving Repr

/-- Lines 35-38: the `user`/`assistant` turn for one history entry, text
copied verbatim (`MessageType.USER` maps to `user`, the other kind to
`assistant`). -/
def historyTurn (msg : ChatMessage) : CoreMessage :=
  { role := if msg.type = MessageType.user then Role.user else Role.assistant
    content := MessageContent.text msg.text }

/-- Lines 35-38: map each history entry to its turn. -/
def historyMessages (conversationHistory : List ChatMessage) : List CoreMessage :=
  conversationHistory.map historyTurn

/-- Lines 51-58: the synthetic tool call pushed for one `contextData`
entry — call id `pre-fetched-<key>`, the key as tool name, empty args. -/
def contextToolCall (p : String × JValue) : ToolCallPart :=
  { toolCallId := "pre-fetched-" ++ p.1, toolName := p.1, args := [] }

/-- Lines 66-78: the synthetic tool-result turn pushed for one
`contextData` entry — same call id `pre-fetched-<key>`, carrying the
entry's value. -/
def contextToolResultTurn (p : String × JValue) : CoreMessage :=
  { role := Role.tool
    content := MessageContent.toolResults
      [{ toolCallId := "pre-fetched-" ++ p.1, toolName := p.1, result := p.2 }] }

/-- Lines 49-79: when `contextData` is present with at least one key, one
synthetic assistant turn holding a tool call per key, followed by one
synthetic tool-result turn per key. -/
def syntheticMessages (contextData : Option (List (String × JValue))) : List CoreMessage :=
  match contextData with
  | none => []
  | some cd =>
    if cd.length > 0 then
      { role := Role.assistant
        content := MessageContent.toolCalls (cd.map contextToolCall) }
      :: cd.map contextToolResultTurn
    else []

/-- Lines 35-79 of `streamMessage`: history turns, then the new user turn,
then (after it) the synthetic context-data turns. -/
def assembleMessages (conversationHistory : List ChatMessage) (text : String)
    (contextData : Option (List (String × JValue))) : List CoreMessage :=
  let messages := historyMessages conversationHistory
  let messages := messages ++ [{ role := Role.user, content := MessageContent.text text }]
  messages ++ syntheticMessages contextData

/-! ### The error classifier (src/errors/ai-sdk.error.ts) -/

/-- A thrown/rejected JavaScript value as far as the classifier can
distinguish it: a native `Error`, an `AiSdkError` (which `extends Error`),
or any other value remembered by its `String(...)` form.  An `AiSdkError`
carries `message`, the optional wrapped `originalError` and the optional
`context` argument (stack traces are not modelled). -/
inductive ErrVal : Type where
  | jsError (message : String) : ErrVal
  | primitive (stringified : String) : ErrVal
  | aiSdk (message : String) (originalError : Option ErrVal) (context : Option String) : ErrVal
deriving Repr

/-- `error instanceof Error` (an `AiSdkError` is an `Error`). -/
def ErrVal.isErrorInstance : ErrVal → Bool
  | .jsError _ => true
  | .aiSdk _ _ _ => true
  | .primitive _ => false

/-- `.message` of an `Error` instance; the `String(...)` form otherwise. -/
def ErrVal.message : ErrVal → String
  | .jsError m => m
  | .aiSdk m _ _ => m
  | .primitive s => s

/-- `AiSdkError.isAiSdkError` / `error instanceof AiSdkError`. -/
def ErrVal.isAiSdkError : ErrVal → Bool
  | .aiSdk _ _ _ => true
  | _ => false

/-- The `originalError` wrapped by a classified error. -/
def ErrVal.cause : ErrVal → Option ErrVal
  | .aiSdk _ o _ => o
  | _ => none

/-- The transitive depth of the `originalError` chain of a classified
error (used to show a wrapper is never equal to what it wraps). -/
def ErrVal.causeDepth : ErrVal → Nat
  | .aiSdk _ (some o) _ => o.causeDepth + 1
  | _ => 0

/-- `AiSdkError.fromError(error, context?)`: pass an `AiSdkError` through
unchanged, otherwise wrap the message (or the stringified value) with the
original as cause. -/
def fromError (error : ErrVal) (context : Option String) : ErrVal :=
  match error with
  | .aiSdk m o c => .aiSdk m o c
  | .jsError m => .aiSdk m (some error) context
  | .primitive s => .aiSdk s (some error) context

/-! ### The tool adapter (lines 87-113 of `streamMessage`) -/

/-- `execute` of a registered tool (lines 97-108): look the tool's name up
in the `contextData` captured when the adapter was built; return the value
unless it is `null`/`undefined`, the sentinel object otherwise.  The
operation is a pure total function — it cannot throw and repeated
invocations return the same value. -/
def executeTool (contextData : Option (List (String × JValue))) (toolName : String) : JValue :=
  let toolData := match contextData with
    | none => JValue.undefined
    | some cd => jsGet cd toolName
  match toolData with
  | .null => JValue.obj [("error", JValue.str "Data should be pre-fetched by Chat Service")]
  | .undefined => JValue.obj [("error", JValue.str "Data should be pre-fetched by Chat Service")]
  | v => v

/-- A provider-callable tool as built by `tool({...})`: the description,
the converted parameter validator, and the (pure) result of `execute`. -/
structure AiSdkTool : Type where
  description : String
  parameters : ZodObject
  executeResult : JValue
deriving Repr

/-- `Object.fromEntries`: left-to-right insertion with JavaScript object
key semantics (first-occurrence position, last-occurrence value). -/
def fromEntries {α : Type} (l : List (String × α)) : List (String × α) :=
  l.foldl (fun acc p => assocInsert acc p.1 p.2) []

/-- The `tools.map((toolDef) => ...)` of lines 89-111, left to right: for
each declaration convert its schema (the first `TypeError` aborts the
whole map) and build the `[name, tool]` entry. -/
def buildToolEntries (contextData : Option (List (String × JValue))) :
    List ToolDefinition → Except String (List (String × AiSdkTool))
  | [] => .ok []
  | toolDef :: rest => do
    let zodSchema ← jsonSchemaToZod toolDef.parameters
    let entries ← buildToolEntries contextData rest
    pure ((toolDef.name,
      { description := toolDef.description
        parameters := zodSchema
        executeResult := executeTool contextData toolDef.name : AiSdkTool }) :: entries)

/-- Lines 87-113: convert every declaration into an AI-SDK tool keyed by
name (`Object.fromEntries`, so a duplicated name keeps the last
declaration), or `none` when no declarations were supplied.  A `TypeError`
thrown by `jsonSchemaToZod` escapes; this happens outside the
`try`-block, so such an error leaves `streamMessage` unclassified. -/
def buildTools (contextData : Option (List (String × JValue)))
    (tools : Option (List ToolDefinition)) :
    Except String (Option (List (String × AiSdkTool))) :=
  match tools with
  | none => .ok none
  | some ts =>
      match buildToolEntries contextData ts with
      | .error e => .error e
      | .ok entries => .ok (some (fromEntries entries))

/-! ### The provider stream and the orchestrator state machine -/

/-- One event of the provider's richer `fullStream` channel.  The loop in
lines 142-152 only inspects `error` and `text-delta` parts; every other
part kind is `otherPart`. -/
inductive FullStreamPart : Type where
  | textDelta (textDelta : String) : FullStreamPart
  | errorPart (error : ErrVal) : FullStreamPart
  | otherPart : FullStreamPart
deriving Repr

/-- A settleable provider value: it resolves or rejects at some time
(milliseconds after the race begins), or never settles. -/
inductive Settled (α : Type) : Type where
  | resolvesAt (v : α) (t : Nat) : Settled α
  | rejectsAt (e : ErrVal) (t : Nat) : Settled α
  | never : Settled α

/-- `Promise.race([p, timeout(deadline, msg)])` (lines 163-194): the value
wins only by settling strictly before the timer; otherwise the race
rejects with the timeout `AiSdkError`. -/
def race {α : Type} (p : Settled α) (deadline : Nat) (timeoutMsg : String) :
    Except ErrVal α :=
  match p with
  | .resolvesAt v t => if t < deadline then .ok v else .error (.aiSdk timeoutMsg none none)
  | .rejectsAt e t => if t < deadline then .error e else .error (.aiSdk timeoutMsg none none)
  | .never => .error (.aiSdk timeoutMsg none none)

/-- The handle returned by `streamText`.  `textRead` is the first read of
the `result.text` getter (line 174) and `textReread` the second one after
the grace delay (line 209) — the getter may hand out different promises.
The channels are modelled as the finite sequences of items they deliver. -/
structure StreamTextResult : Type where
  textStream : List String
  fullStream : List FullStreamPart
  finishReason : Settled String
  textRead : Settled String
  textReread : Settled String
  toolCalls : Settled JValue

/-- The deadline (ms) raced against `result.finishReason` (line 169). -/
def finishReasonTimeoutMs : Nat := 5000

/-- The deadline (ms) raced against `result.text` (line 179). -/
def textTimeoutMs : Nat := 30000

/-- The deadline (ms) raced against `result.toolCalls` (line 191). -/
def toolCallsTimeoutMs : Nat := 30000

/-- The fixed grace delay (ms) before re-reading `result.text` (line 204). -/
def graceDelayMs : Nat := 1000

/-- Lines 142-152: drain `fullStream`, yielding each `text-delta` text;
on the first `error` part, classify it, stop consuming (`break`) and
remember it.  Returns the yielded texts and the remembered error. -/
def processFullStream : List FullStreamPart → List String × Option ErrVal
  | [] => ([], none)
  | .errorPart e :: _ => ([], some (fromError e none))
  | .textDelta s :: rest =>
      let r := processFullStream rest
      (s :: r.1, r.2)
  | .otherPart :: rest => processFullStream rest

/-- `${finishReason || "unknown"}`. -/
def finishReasonDisplay (finishReason : String) : String :=
  if finishReason = "" then "unknown" else finishReason

/-- `v.length` as a JavaScript value: a number for arrays and strings,
`undefined` otherwise. -/
def jsLengthVal : JValue → JValue
  | .arr xs => JValue.num xs.length
  | .str s => JValue.num s.length
  | _ => JValue.undefined

/-- Template-literal stringification `${v}` for the values the service
interpolates: numbers, strings and `undefined` (the only shapes reaching
a template literal are `jsLengthVal` results and finish reasons; the
array/object forms are placeholders and are never reached). -/
def jsToString : JValue → String
  | .null => "null"
  | .undefined => "undefined"
  | .bool b => if b then "true" else "false"
  | .num n => toString n
  | .str s => s
  | .arr _ => "<array>"
  | .obj _ => "[object Object]"

/-- The JavaScript test `finalText && finalText.trim().length` used at
lines 197 and 211: the string is truthy and its trimmed length non-zero. -/
def jsTextTruthy (s : String) : Bool :=
  s != "" && (jsTrim s).length != 0

/-- `finalToolCalls && finalToolCalls.length` (line 200). -/
def toolCallsPresent (toolCalls : JValue) : Bool :=
  toolCalls.truthy && (jsLengthVal toolCalls).truthy

/-- `Tools: ${tools?.length || 0}`. -/
def toolsCountDisplay (tools : Option (List ToolDefinition)) : Nat :=
  match tools with
  | none => 0
  | some ts => ts.length

/-- `ContextData keys: ${contextData ? Object.keys(contextData).join(", ") : "none"}`. -/
def contextKeysDisplay (contextData : Option (List (String × JValue))) : String :=
  match contextData with
  | none => "none"
  | some cd => String.intercalate ", " (cd.map (fun p => p.1))

/-- `ToolCalls: ${finalToolCalls?.length || 0}` (line 223). -/
def toolCallsCountDisplay (toolCalls : JValue) : String :=
  if (jsLengthVal toolCalls).truthy then jsToString (jsLengthVal toolCalls) else "0"

/-- The message of the error built at line 215/219 (without the trailing
`, Error: ...` suffix of line 219). -/
def noTextAfterToolsMsg (toolCalls : JValue) (finishReason : String) : String :=
  "AI SDK called tools but did not generate text. ToolCalls: " ++
    jsToString (jsLengthVal toolCalls) ++ ", FinishReason: " ++
    finishReasonDisplay finishReason

/-- The message of the empty-stream error built at line 223. -/
def emptyStreamMsg (messages : List CoreMessage) (tools : Option (List ToolDefinition))
    (contextData : Option (List (String × JValue))) (finishReason : String)
    (toolCalls : JValue) : String :=
  "AI SDK stream completed without generating any chunks or text. Messages: " ++
    toString messages.length ++ ", Tools: " ++ toString (toolsCountDisplay tools) ++
    ", ContextData keys: " ++ contextKeysDisplay contextData ++
    ", FinishReason: " ++ finishReasonDisplay finishReason ++
    ", ToolCalls: " ++ toolCallsCountDisplay toolCalls

/-- The `catch (resultError)` of lines 226-232: every error thrown inside
the settlement tier — the tier's own classified errors included — is
wrapped in a fresh `AiSdkError` carrying it as cause. -/
def settlementWrap (messages : List CoreMessage) (tools : Option (List ToolDefinition))
    (contextData : Option (List (String × JValue))) (resultError : ErrVal) : ErrVal :=
  .aiSdk ("AI SDK stream completed without generating any chunks. Messages: " ++
      toString messages.length ++ ", Tools: " ++ toString (toolsCountDisplay tools) ++
      ", ContextData keys: " ++ contextKeysDisplay contextData ++
      ". Error getting final result: " ++
      (if resultError.isErrorInstance then resultError.message else "Unknown error"))
    (some resultError) none

/-- The `catch (delayedError)` of lines 218-221: rebuild the
no-text-after-tools message with an `, Error:` suffix and wrap the caught
value as cause. -/
def delayedCatchErr (toolCalls : JValue) (finishReason : String)
    (delayedError : ErrVal) : ErrVal :=
  .aiSdk (noTextAfterToolsMsg toolCalls finishReason ++ ", Error: " ++
      (if delayedError.isErrorInstance then delayedError.message else "Unknown"))
    (some delayedError) none

/-- Result of the settlement tier (lines 160-233) seen from inside the
generator: a single yielded fragment, a raised error, or divergence (the
un-raced grace re-read of `result.text` never settles). -/
inductive TierOutcome : Type where
  | yielded (s : String) : TierOutcome
  | raised (e : ErrVal) : TierOutcome
  | hung : TierOutcome
deriving Repr

/-- The three bounded races of lines 163-194, in source order. -/
def settleRaces (result : StreamTextResult) : Except ErrVal (String × String × JValue) := do
  let finishReason ← race result.finishReason finishReasonTimeoutMs
    "Timeout waiting for result.finishReason"
  let finalText ← race result.textRead textTimeoutMs "Timeout waiting for result.text"
  let finalToolCalls ← race result.toolCalls toolCallsTimeoutMs
    "Timeout waiting for result.toolCalls"
  pure (finishReason, finalText, finalToolCalls)

/-- What the body of the inner `try` (lines 162-225) does: yield a single
fragment, throw an error (to be caught at line 226), or hang on the
un-raced grace re-read. -/
inductive InnerOutcome : Type where
  | yield (s : String) : InnerOutcome
  | raise (e : ErrVal) : InnerOutcome
  | hang : InnerOutcome
deriving Repr

/-- Lines 162-225: the inner `try` body of the settlement tier — the
three races, the final-text check, the grace-delay re-read with its own
`catch` (lines 208-221), and the empty-stream throw. -/
def settlementInner (result : StreamTextResult) (messages : List CoreMessage)
    (tools : Option (List ToolDefinition))
    (contextData : Option (List (String × JValue))) : InnerOutcome :=
  match settleRaces result with
  | .error e => .raise e
  | .ok (finishReason, finalText, finalToolCalls) =>
    if jsTextTruthy finalText then
      .yield finalText
    else if toolCallsPresent finalToolCalls then
      match result.textReread with
      | .never => .hang
      | .rejectsAt e _ => .raise (delayedCatchErr finalToolCalls finishReason e)
      | .resolvesAt delayedText _ =>
          if jsTextTruthy delayedText then
            .yield delayedText
          else
            .raise (delayedCatchErr finalToolCalls finishReason
              (.aiSdk (noTextAfterToolsMsg finalToolCalls finishReason) none none))
    else
      .raise (.aiSdk (emptyStreamMsg messages tools contextData finishReason finalToolCalls)
        none none)

/-- Lines 160-233, the settlement tier: the inner `try` body plus the
`catch (resultError)` of line 226, which wraps every thrown error with
`settlementWrap`. -/
def settlement (result : StreamTextResult) (messages : List CoreMessage)
    (tools : Option (List ToolDefinition))
    (contextData : Option (List (String × JValue))) : TierOutcome :=
  match settlementInner result messages tools contextData with
  | .yield s => .yielded s
  | .hang => .hung
  | .raise e => .raised (settlementWrap messages tools contextData e)

/-- What a caller iterating the async generator observes: the fragments
yielded so far, then normal termination, a raised error, or divergence. -/
inductive StreamOutcome : Type where
  | success (fragments : List String) : StreamOutcome
  | failure (fragments : List String) (error : ErrVal) : StreamOutcome
  | diverges (fragments : List String) : StreamOutcome
deriving Repr

/-- The outer `catch` context string of lines 235-237 (stack traces are
not modelled, so the `${errorStack || ""}` suffix is empty). -/
def outerContextMsg (messages : List CoreMessage) (tools : Option (List ToolDefinition))
    (contextData : Option (List (String × JValue))) : String :=
  "AI SDK stream error. Messages: " ++ toString messages.length ++
    ", Tools: " ++ toString (toolsCountDisplay tools) ++
    ", ContextData keys: " ++ contextKeysDisplay contextData ++ ". "

/-- The error message `hay` textually contains `needle` (substring as a
contiguous character run). -/
def msgMentions (hay needle : String) : Prop :=
  needle.data <:+: hay.data

/-- The settleable value fails to settle strictly before the deadline:
it never settles, or settles only at or after the deadline (when the
timeout timer has already fired). -/
def settleFailsBy {α : Type} (p : Settled α) (deadline : Nat) : Prop :=
  match p with
  | .never => True
  | .resolvesAt _ t => deadline ≤ t
  | .rejectsAt _ t => deadline ≤ t

/-- `AiSdkService.streamMessage` (lines 31-241).  `invoke` is the outcome
of `await streamText({...})`.  The assembled messages and the tool map
are built first (a `TypeError` from `jsonSchemaToZod` escapes raw, before
the `try`); then tier 1 drains `textStream`, tier 2 drains `fullStream`
when no fragment was yielded, the settlement tier runs when there is
still no fragment, and the outer `catch` classifies whatever escapes. -/
def streamMessage (params : SendMessageParams)
    (invoke : Except ErrVal StreamTextResult) : StreamOutcome :=
  let conversationHistory := params.conversationHistory.getD []
  let messages := assembleMessages conversationHistory params.text params.contextData
  match buildTools params.contextData params.tools with
  | .error e => .failure [] (.jsError e)
  | .ok _ =>
    let outerCtx := outerContextMsg messages params.tools params.contextData
    match invoke with
    | .error e => .failure [] (fromError e (some outerCtx))
    | .ok result =>
      if result.textStream.length != 0 then
        .success result.textStream
      else
        let tier2 := processFullStream result.fullStream
        match tier2.2 with
        | some streamError =>
            .failure tier2.1 (fromError (fromError streamError none) (some outerCtx))
        | none =>
          if tier2.1.length != 0 then
            .success tier2.1
          else
            match settlement result messages params.tools params.contextData with
            | .yielded s => .success [s]
            | .hung => .diverges []
            | .raised e => .failure [] (fromError e (some outerCtx))

/-! ## Verification: the assembled prompt (lines 35-79) -/

theorem length_historyMessages (h : List ChatMessage) :
    (historyMessages h).length = h.length := by
  simp [historyMessages]

theorem assembleMessages_decomp (h : List ChatMessage) (t : String)
    (cd : Option (List (String × JValue))) :
    assembleMessages h t cd =
      historyMessages h ++
        ({ role := Role.user, content := MessageContent.text t } :: syntheticMessages cd) := by
  simp [assembleMessages]

theorem syntheticMessages_role_ne_user (cd : Option (List (String × JValue))) :
    ∀ x ∈ syntheticMessages cd, x.role ≠ Role.user := by
  intro x hx
  match cd with
  | none => simp [syntheticMessages] at hx
  | some l =>
    simp only [syntheticMessages] at hx
    by_cases hl : l.length > 0
    · rw [if_pos hl] at hx
      rcases List.mem_cons.1 hx with rfl | hx
      · intro hcontra; cases hcontra
      · obtain ⟨p, _, rfl⟩ := List.mem_map.1 hx
        intro hcontra; cases hcontra
    · rw [if_neg hl] at hx
      simp at hx

/-- C1 (amended): the assembled prompt preserves conversation-history
order, maps each history entry to a user/assistant turn with its text
copied verbatim, and appends the new user message immediately after the
history; when a non-empty `contextData` is supplied, the synthetic
assistant tool-call turn and the synthetic tool-result turns appear
AFTER the final user turn (so the user turn is then not the last turn);
an absent or empty (`{}`) `contextData` produces zero synthetic turns. -/
theorem assembleMessages_order (history : List ChatMessage) (text : String)
    (contextData : Option (List (String × JValue))) :
    (∀ (i : Nat) (m : ChatMessage), history[i]? = some m →
      (assembleMessages history text contextData)[i]? = some (historyTurn m)) ∧
    (assembleMessages history text contextData)[history.length]? =
      some { role := Role.user, content := MessageContent.text text } ∧
    (assembleMessages history text contextData).drop (history.length + 1) =
      syntheticMessages contextData ∧
    (syntheticMessages contextData = [] ↔ contextData = none ∨ contextData = some []) ∧
    (∀ cd, contextData = some cd → cd ≠ [] →
      (assembleMessages history text contextData).getLast? ≠
        some { role := Role.user, content := MessageContent.text text }) := by
  refine ⟨?_, ?_, ?_, ?_, ?_⟩
  · intro i m him
    have hi : i < history.length := (List.getElem?_eq_some_iff.1 him).1
    rw [assembleMessages_decomp, List.getElem?_append, length_historyMessages, if_pos hi]
    simp [historyMessages, him]
  · rw [assembleMessages_decomp,
      List.getElem?_append_right (Nat.le_of_eq (length_historyMessages history))]
    simp [length_historyMessages]
  · show ((historyMessages history ++
      [({ role := Role.user, content := MessageContent.text text } : CoreMessage)]) ++
        syntheticMessages contextData).drop (history.length + 1) =
      syntheticMessages contextData
    exact List.drop_left' (by simp [length_historyMessages])
  · match contextData with
    | none => simp [syntheticMessages]
    | some [] => simp [syntheticMessages]
    | some (p :: l) => simp [syntheticMessages]
  · intro cd hcd hne heq
    subst hcd
    rw [assembleMessages_decomp, List.getLast?_append] at heq
    have hsyn : syntheticMessages (some cd) ≠ [] := by
      match cd with
      | [] => exact absurd rfl hne
      | p :: l => simp [syntheticMessages]
    rw [show ({ role := Role.user, content := MessageContent.text text } :
        CoreMessage) :: syntheticMessages (some cd) =
      [{ role := Role.user, content := MessageContent.text text }] ++
        syntheticMessages (some cd) from rfl, List.getLast?_append] at heq
    obtain ⟨x, hx⟩ := Option.isSome_iff_exists.1 (List.getLast?_isSome.2 hsyn)
    rw [hx] at heq
    simp only [Option.or_some, Option.some.injEq] at heq
    exact syntheticMessages_role_ne_user (some cd) x
      (List.mem_of_getLast?_eq_some hx) (by rw [heq])

/-- C1 counterexample: with `contextData = {toolA: {x:1}}`, history `[]`
and user text `"hi"`, the synthetic assistant tool-call turn and the
tool-result turn are appended AFTER the user turn, so the new user
message is not the last turn of the assembled list — the claim says the
synthetic turns come before it. -/
theorem assembleMessages_user_not_last_cex :
    assembleMessages [] "hi" (some [("toolA", JValue.obj [("x", JValue.num 1)])]) =
      [{ role := Role.user, content := MessageContent.text "hi" },
       { role := Role.assistant, content := MessageContent.toolCalls
          [{ toolCallId := "pre-fetched-toolA", toolName := "toolA", args := [] }] },
       { role := Role.tool, content := MessageContent.toolResults
          [{ toolCallId := "pre-fetched-toolA", toolName := "toolA",
             result := JValue.obj [("x", JValue.num 1)] }] }] ∧
    ((assembleMessages [] "hi"
        (some [("toolA", JValue.obj [("x", JValue.num 1)])])).getLast?).map
      CoreMessage.role ≠ some Role.user :=
  ⟨rfl, by decide⟩

/-- Witness for `assembleMessages_order` at a concrete request. -/
theorem assembleMessages_order_witness :
    (assembleMessages [⟨MessageType.user, "q"⟩] "b" (some [("k", JValue.null)]))[1]? =
      some { role := Role.user, content := MessageContent.text "b" } ∧
    (assembleMessages [⟨MessageType.user, "q"⟩] "b" (some [("k", JValue.null)])).getLast? ≠
      some { role := Role.user, content := MessageContent.text "b" } :=
  ⟨(assembleMessages_order [⟨MessageType.user, "q"⟩] "b" (some [("k", JValue.null)])).2.1,
   (assembleMessages_order [⟨MessageType.user, "q"⟩] "b" (some [("k", JValue.null)])).2.2.2.2
     [("k", JValue.null)] rfl (List.cons_ne_nil _ _)⟩

/-- C9: for a non-empty `contextData` (with the distinct keys a
JavaScript object guarantees), the injected turns are internally
consistent: the single synthetic assistant turn has exactly one
tool-call part per key — empty arguments, call id `pre-fetched-<key>` —
each following synthetic tool-result turn carries one part with the same
call id and the key's value, the number of tool-result turns equals the
number of keys, and every tool-result part references a call id that
occurs in the assistant turn. -/
theorem syntheticMessages_internally_consistent (cd : List (String × JValue))
    (hne : cd ≠ []) (hnd : (cd.map Prod.fst).Nodup) :
    syntheticMessages (some cd) =
      { role := Role.assistant,
        content := MessageContent.toolCalls (cd.map contextToolCall) }
        :: cd.map contextToolResultTurn ∧
    (cd.map contextToolResultTurn).length = cd.length ∧
    (∀ p : String × JValue, contextToolCall p =
      { toolCallId := "pre-fetched-" ++ p.1, toolName := p.1, args := [] } ∧
      contextToolResultTurn p =
        { role := Role.tool, content := MessageContent.toolResults
            [{ toolCallId := "pre-fetched-" ++ p.1, toolName := p.1, result := p.2 }] }) ∧
    (∀ k, k ∈ cd.map Prod.fst →
      ((cd.map contextToolCall).filter (fun c => c.toolName == k)).length = 1) ∧
    (∀ m, m ∈ cd.map contextToolResultTurn →
      ∀ parts, m.content = MessageContent.toolResults parts →
        parts.length = 1 ∧ ∀ rp, rp ∈ parts →
          rp.toolCallId ∈ (cd.map contextToolCall).map ToolCallPart.toolCallId) := by
  refine ⟨?_, List.length_map _ _, fun p => ⟨rfl, rfl⟩, ?_, ?_⟩
  · have hl : cd.length > 0 := by
      match cd with
      | [] => exact absurd rfl hne
      | p :: l => simp
    simp [syntheticMessages, hl]
  · intro k hk
    have h1 : ((cd.map contextToolCall).filter (fun c => c.toolName == k)).length
        = List.countP (fun c => c.toolName == k) (cd.map contextToolCall) :=
      (List.countP_eq_length_filter _ _).symm
    rw [h1, List.countP_map]
    have h2 : List.countP ((fun c => c.toolName == k) ∘ contextToolCall) cd
        = List.countP ((fun s => s == k) ∘ Prod.fst) cd := by
      apply List.countP_congr
      intro p _
      rfl
    rw [h2, ← List.countP_map]
    exact List.count_eq_one_of_mem hnd hk
  · intro m hm parts hparts
    obtain ⟨p, hp, rfl⟩ := List.mem_map.1 hm
    simp only [contextToolResultTurn, MessageContent.toolResults.injEq] at hparts
    subst hparts
    refine ⟨rfl, ?_⟩
    intro rp hrp
    rw [List.mem_singleton] at hrp
    subst hrp
    exact List.mem_map.2 ⟨contextToolCall p, List.mem_map_of_mem _ hp, rfl⟩

/-! ## Verification: the classifier and the fallback tiers -/

theorem fromError_isAiSdkError (e : ErrVal) (c : Option String) :
    (fromError e c).isAiSdkError = true := by
  cases e <;> rfl

theorem fromError_of_isAiSdkError (e : ErrVal) (c : Option String)
    (h : e.isAiSdkError = true) : fromError e c = e := by
  cases e with
  | aiSdk m o ctx => rfl
  | jsError m => cases h
  | primitive s => cases h

theorem fromError_fromError (e : ErrVal) (c c' : Option String) :
    fromError (fromError e c) c' = fromError e c :=
  fromError_of_isAiSdkError _ _ (fromError_isAiSdkError e c)

theorem processFullStream_deltas_then_error (deltas : List String) (e : ErrVal)
    (rest : List FullStreamPart) :
    processFullStream (deltas.map FullStreamPart.textDelta ++
      FullStreamPart.errorPart e :: rest) = (deltas, some (fromError e none)) := by
  induction deltas with
  | nil => simp [processFullStream]
  | cons d ds ih => simp [processFullStream, ih]

theorem processFullStream_quiet (fs : List FullStreamPart)
    (h : ∀ p ∈ fs, p = FullStreamPart.otherPart) :
    processFullStream fs = ([], none) := by
  induction fs with
  | nil => rfl
  | cons p ps ih =>
    have hp := h p (List.mem_cons_self p ps)
    subst hp
    simpa [processFullStream] using ih (fun q hq => h q (List.mem_cons_of_mem _ hq))

theorem streamMessage_of_settlement (params : SendMessageParams)
    (result : StreamTextResult) (tm : Option (List (String × AiSdkTool)))
    (hb : buildTools params.contextData params.tools = Except.ok tm)
    (h1 : result.textStream = [])
    (h2 : ∀ p ∈ result.fullStream, p = FullStreamPart.otherPart) :
    streamMessage params (Except.ok result) =
      match settlement result
          (assembleMessages (params.conversationHistory.getD []) params.text
            params.contextData) params.tools params.contextData with
      | .yielded s => StreamOutcome.success [s]
      | .hung => StreamOutcome.diverges []
      | .raised e => StreamOutcome.failure []
          (fromError e (some (outerContextMsg
            (assembleMessages (params.conversationHistory.getD []) params.text
              params.contextData) params.tools params.contextData))) := by
  simp [streamMessage, hb, h1, processFullStream_quiet _ h2]

theorem settlement_raised_eq_wrap (result : StreamTextResult)
    (m : List CoreMessage) (t : Option (List ToolDefinition))
    (c : Option (List (String × JValue))) (e : ErrVal)
    (h : settlement result m t c = TierOutcome.raised e) :
    ∃ inner, settlementInner result m t c = InnerOutcome.raise inner ∧
      e = settlementWrap m t c inner := by
  unfold settlement at h
  cases hi : settlementInner result m t c with
  | yield s => rw [hi] at h; cases h
  | hang => rw [hi] at h; cases h
  | raise inner => rw [hi] at h; cases h; exact ⟨inner, rfl, rfl⟩

theorem settlement_raised_isAiSdk (result : StreamTextResult)
    (m : List CoreMessage) (t : Option (List ToolDefinition))
    (c : Option (List (String × JValue))) (e : ErrVal)
    (h : settlement result m t c = TierOutcome.raised e) : e.isAiSdkError = true := by
  obtain ⟨inner, _, rfl⟩ := settlement_raised_eq_wrap result m t c e h
  rfl

/-- Witness for `syntheticMessages_internally_consistent` at
`contextData = {a: 1}`. -/
theorem syntheticMessages_internally_consistent_witness :
    syntheticMessages (some [("a", JValue.num 1)]) =
      { role := Role.assistant,
        content := MessageContent.toolCalls ([("a", JValue.num 1)].map contextToolCall) }
        :: [("a", JValue.num 1)].map contextToolResultTurn ∧
    (([("a", JValue.num 1)].map contextToolCall).filter
      (fun c => c.toolName == "a")).length = 1 :=
  ⟨(syntheticMessages_internally_consistent [("a", JValue.num 1)]
      (List.cons_ne_nil _ _) (by simp)).1,
   (syntheticMessages_internally_consistent [("a", JValue.num 1)]
      (List.cons_ne_nil _ _) (by simp)).2.2.2.1 "a" (by simp)⟩

/-- C3: when the primary channel yields zero fragments and the secondary
channel carries N `text-delta` events followed by one `error` event, the
caller receives exactly those N delta texts, in order, and then the
classified error; the events after the error event (`rest`) do not
influence the outcome — they are never consumed. -/
theorem streamMessage_secondary_error (params : SendMessageParams)
    (result : StreamTextResult) (tm : Option (List (String × AiSdkTool)))
    (deltas : List String) (e : ErrVal) (rest : List FullStreamPart)
    (hb : buildTools params.contextData params.tools = Except.ok tm)
    (h1 : result.textStream = [])
    (h2 : result.fullStream =
      deltas.map FullStreamPart.textDelta ++ FullStreamPart.errorPart e :: rest) :
    streamMessage params (Except.ok result) =
      StreamOutcome.failure deltas (fromError e none) := by
  simp [streamMessage, hb, h1, h2, processFullStream_deltas_then_error,
    fromError_fromError]

/-- Witness for `streamMessage_secondary_error`: two deltas, an error
event, then a further delta that is never consumed. -/
theorem streamMessage_secondary_error_witness :
    streamMessage { userId := "u", text := "hi" }
      (Except.ok
        { textStream := []
          fullStream := [FullStreamPart.textDelta "a", FullStreamPart.textDelta "b",
            FullStreamPart.errorPart (ErrVal.jsError "boom"),
            FullStreamPart.textDelta "never consumed"]
          finishReason := Settled.never
          textRead := Settled.never
          textReread := Settled.never
          toolCalls := Settled.never }) =
      StreamOutcome.failure ["a", "b"] (fromError (ErrVal.jsError "boom") none) :=
  streamMessage_secondary_error { userId := "u", text := "hi" } _ none ["a", "b"]
    (ErrVal.jsError "boom") [FullStreamPart.textDelta "never consumed"] rfl rfl rfl

theorem settlementWrap_ne (m : List CoreMessage) (t : Option (List ToolDefinition))
    (c : Option (List (String × JValue))) (e : ErrVal) :
    settlementWrap m t c e ≠ e := by
  intro h
  have hd := congrArg ErrVal.causeDepth h
  simp only [settlementWrap, ErrVal.causeDepth] at hd
  omega

/-- A provider result whose channels are empty and whose settlement
values all resolve immediately: empty final text, no tool calls. -/
def emptyStreamCexResult : StreamTextResult :=
  { textStream := []
    fullStream := []
    finishReason := Settled.resolvesAt "stop" 0
    textRead := Settled.resolvesAt "" 0
    textReread := Settled.resolvesAt "" 0
    toolCalls := Settled.resolvesAt (JValue.arr []) 0 }

/-- The classified empty-stream error message built at line 223 for that
request. -/
def emptyStreamCexInnerMsg : String :=
  "AI SDK stream completed without generating any chunks or text. Messages: 1, Tools: 0, ContextData keys: none, FinishReason: stop, ToolCalls: 0"

/-- The message of the second classified error in which the settlement
`catch` (line 228) wraps the one above. -/
def emptyStreamCexOuterMsg : String :=
  "AI SDK stream completed without generating any chunks. Messages: 1, Tools: 0, ContextData keys: none. Error getting final result: " ++
    emptyStreamCexInnerMsg

/-- C2 counterexample: the empty-stream error is classified at line 224,
yet the error surfaced to the caller is a different classified error that
wraps it (built by the `catch` at lines 226-231) — an inner-tier
classified error is NOT surfaced as the same instance; it is wrapped a
second time inside another classified error. -/
theorem streamMessage_double_wrap_cex :
    streamMessage { userId := "u", text := "hi" } (Except.ok emptyStreamCexResult) =
      StreamOutcome.failure []
        (ErrVal.aiSdk emptyStreamCexOuterMsg
          (some (ErrVal.aiSdk emptyStreamCexInnerMsg none none)) none) ∧
    (ErrVal.aiSdk emptyStreamCexInnerMsg none none).isAiSdkError = true ∧
    ErrVal.aiSdk emptyStreamCexOuterMsg
        (some (ErrVal.aiSdk emptyStreamCexInnerMsg none none)) none ≠
      ErrVal.aiSdk emptyStreamCexInnerMsg none none :=
  ⟨rfl, rfl, by simp⟩

/-- C2 (amended): the classifier and the outer tier never double-wrap —
`fromError` always returns a classified error, returns an
already-classified error unchanged, and therefore any error raised out of
the tiers (the secondary-channel stream error included, see
`streamMessage_secondary_error`) is surfaced as the same classified
instance by the outer `catch`.  The settlement tier is the exception: its
own `catch` wraps every error thrown inside it — its own classified
timeout, no-text-after-tools and empty-stream errors included — exactly
once more in a new classified error carrying the original as cause, and
that wrapper is what the caller receives, unchanged by the outer tier. -/
theorem streamMessage_error_classification :
    (∀ (e : ErrVal) (c : Option String), (fromError e c).isAiSdkError = true) ∧
    (∀ (e : ErrVal) (c : Option String), e.isAiSdkError = true → fromError e c = e) ∧
    (∀ (m : List CoreMessage) (t : Option (List ToolDefinition))
       (c : Option (List (String × JValue))) (inner : ErrVal),
      (settlementWrap m t c inner).isAiSdkError = true ∧
      (settlementWrap m t c inner).cause = some inner ∧
      settlementWrap m t c inner ≠ inner) ∧
    (∀ (params : SendMessageParams) (result : StreamTextResult)
       (tm : Option (List (String × AiSdkTool))) (e : ErrVal),
      buildTools params.contextData params.tools = Except.ok tm →
      result.textStream = [] →
      (∀ p ∈ result.fullStream, p = FullStreamPart.otherPart) →
      settlement result
        (assembleMessages (params.conversationHistory.getD []) params.text
          params.contextData) params.tools params.contextData = TierOutcome.raised e →
      streamMessage params (Except.ok result) = StreamOutcome.failure [] e) := by
  refine ⟨fromError_isAiSdkError, fromError_of_isAiSdkError, ?_, ?_⟩
  · intro m t c inner
    exact ⟨rfl, rfl, settlementWrap_ne m t c inner⟩
  · intro params result tm e hb h1 h2 hs
    rw [streamMessage_of_settlement params result tm hb h1 h2, hs]
    show StreamOutcome.failure [] (fromError e _) = StreamOutcome.failure [] e
    rw [fromError_of_isAiSdkError _ _ (settlement_raised_isAiSdk _ _ _ _ _ hs)]

theorem race_of_resolves {α : Type} (v : α) (t d : Nat) (msg : String) (h : t < d) :
    race (Settled.resolvesAt v t) d msg = Except.ok v := by
  simp [race, h]

theorem race_of_timeout {α : Type} (p : Settled α) (d : Nat) (msg : String)
    (h : settleFailsBy p d) :
    race p d msg = Except.error (ErrVal.aiSdk msg none none) := by
  cases p with
  | never => rfl
  | resolvesAt v t => simp [race, Nat.not_lt.2 (h : d ≤ t)]
  | rejectsAt e t => simp [race, Nat.not_lt.2 (h : d ≤ t)]

theorem settleRaces_resolves (result : StreamTextResult) (fr s : String)
    (tc : JValue) (t1 t2 t3 : Nat)
    (hfr : result.finishReason = Settled.resolvesAt fr t1)
    (hd1 : t1 < finishReasonTimeoutMs)
    (htx : result.textRead = Settled.resolvesAt s t2)
    (hd2 : t2 < textTimeoutMs)
    (htc : result.toolCalls = Settled.resolvesAt tc t3)
    (hd3 : t3 < toolCallsTimeoutMs) :
    settleRaces result = Except.ok (fr, s, tc) := by
  simp [settleRaces, race, hfr, htx, htc, hd1, hd2, hd3]
  rfl

theorem streamMessage_raised_surfaces (params : SendMessageParams)
    (result : StreamTextResult) (tm : Option (List (String × AiSdkTool))) (e : ErrVal)
    (hb : buildTools params.contextData params.tools = Except.ok tm)
    (h1 : result.textStream = [])
    (h2 : ∀ p ∈ result.fullStream, p = FullStreamPart.otherPart)
    (hs : settlement result
      (assembleMessages (params.conversationHistory.getD []) params.text
        params.contextData) params.tools params.contextData = TierOutcome.raised e) :
    streamMessage params (Except.ok result) = StreamOutcome.failure [] e := by
  rw [streamMessage_of_settlement params result tm hb h1 h2, hs]
  show StreamOutcome.failure [] (fromError e _) = StreamOutcome.failure [] e
  rw [fromError_of_isAiSdkError _ _ (settlement_raised_isAiSdk _ _ _ _ _ hs)]

theorem streamMessage_yielded_surfaces (params : SendMessageParams)
    (result : StreamTextResult) (tm : Option (List (String × AiSdkTool))) (s : String)
    (hb : buildTools params.contextData params.tools = Except.ok tm)
    (h1 : result.textStream = [])
    (h2 : ∀ p ∈ result.fullStream, p = FullStreamPart.otherPart)
    (hs : settlement result
      (assembleMessages (params.conversationHistory.getD []) params.text
        params.contextData) params.tools params.contextData = TierOutcome.yielded s) :
    streamMessage params (Except.ok result) = StreamOutcome.success [s] := by
  rw [streamMessage_of_settlement params result tm hb h1 h2, hs]

theorem jsTextTruthy_eq (u : String) :
    jsTextTruthy u = decide ((jsTrim u).length ≠ 0) := by
  by_cases hu : u = ""
  · subst hu; rfl
  · rcases Nat.eq_zero_or_pos (jsTrim u).length with h0 | hpos
    · simp [jsTextTruthy, hu, h0]
    · simp [jsTextTruthy, hu, Nat.pos_iff_ne_zero.1 hpos]

/-- C4: with zero fragments from both channels and all three settlement
races resolving in time, a final text that is non-empty after trimming is
yielded as the single fragment and the stream ends successfully; and the
truthiness test `finalText && finalText.trim().length` used at both text
checks of the settlement tier equals the uniform emptiness predicate
`trim().length === 0` (negated), so whitespace-only text behaves exactly
like empty text. -/
theorem streamMessage_settlement_final_text (params : SendMessageParams)
    (result : StreamTextResult) (tm : Option (List (String × AiSdkTool)))
    (fr s : String) (tc : JValue) (t1 t2 t3 : Nat)
    (hb : buildTools params.contextData params.tools = Except.ok tm)
    (h1 : result.textStream = [])
    (h2 : ∀ p ∈ result.fullStream, p = FullStreamPart.otherPart)
    (hfr : result.finishReason = Settled.resolvesAt fr t1)
    (hd1 : t1 < finishReasonTimeoutMs)
    (htx : result.textRead = Settled.resolvesAt s t2)
    (hd2 : t2 < textTimeoutMs)
    (htc : result.toolCalls = Settled.resolvesAt tc t3)
    (hd3 : t3 < toolCallsTimeoutMs)
    (hs : (jsTrim s).length ≠ 0) :
    streamMessage params (Except.ok result) = StreamOutcome.success [s] ∧
    (∀ u : String, jsTextTruthy u = decide ((jsTrim u).length ≠ 0)) := by
  constructor
  · have hr : settleRaces result = Except.ok (fr, s, tc) :=
      settleRaces_resolves result fr s tc t1 t2 t3 hfr hd1 htx hd2 htc hd3
    have hst : jsTextTruthy s = true := by
      rw [jsTextTruthy_eq]; exact decide_eq_true hs
    exact streamMessage_yielded_surfaces params result tm s hb h1 h2
      (by simp [settlement, settlementInner, hr, hst])
  · exact jsTextTruthy_eq

/-- Witness for `streamMessage_settlement_final_text`. -/
theorem streamMessage_settlement_final_text_witness :
    streamMessage { userId := "u", text := "hi" }
      (Except.ok
        { textStream := []
          fullStream := []
          finishReason := Settled.resolvesAt "stop" 10
          textRead := Settled.resolvesAt "Final text" 20
          textReread := Settled.never
          toolCalls := Settled.resolvesAt (JValue.arr []) 30 }) =
      StreamOutcome.success ["Final text"] :=
  (streamMessage_settlement_final_text { userId := "u", text := "hi" } _ none
    "stop" "Final text" (JValue.arr []) 10 20 30 rfl rfl
    (by intro p hp; simp at hp) rfl (by decide) rfl (by decide) rfl (by decide)
    (by decide)).1

theorem msgMentions_trans {a b c : String} (h1 : msgMentions b a)
    (h2 : msgMentions c b) : msgMentions c a :=
  List.IsInfix.trans h1 h2

theorem noTextMsg_mentions_toolCalls (tc : JValue) (fr : String) :
    msgMentions (noTextAfterToolsMsg tc fr)
      ("ToolCalls: " ++ jsToString (jsLengthVal tc)) := by
  refine ⟨("AI SDK called tools but did not generate text. " : String).data,
    (", FinishReason: " ++ finishReasonDisplay fr).data, ?_⟩
  have hsplit : ("AI SDK called tools but did not generate text. ToolCalls: " : String) =
      "AI SDK called tools but did not generate text. " ++ "ToolCalls: " := rfl
  simp [noTextAfterToolsMsg, hsplit, String.data_append, List.append_assoc]

theorem noTextMsg_mentions_finishReason (tc : JValue) (fr : String) :
    msgMentions (noTextAfterToolsMsg tc fr)
      ("FinishReason: " ++ finishReasonDisplay fr) := by
  refine ⟨("AI SDK called tools but did not generate text. ToolCalls: " ++
    jsToString (jsLengthVal tc) ++ ", ").data, [], ?_⟩
  have hsplit : (", FinishReason: " : String) = ", " ++ "FinishReason: " := rfl
  simp [noTextAfterToolsMsg, hsplit, String.data_append, List.append_assoc]

theorem delayedCatchErr_mentions_noText (tc : JValue) (fr : String) (e : ErrVal) :
    msgMentions (delayedCatchErr tc fr e).message (noTextAfterToolsMsg tc fr) := by
  refine ⟨[], (", Error: " ++
    (if e.isErrorInstance then e.message else "Unknown")).data, ?_⟩
  simp [delayedCatchErr, ErrVal.message, String.data_append, List.append_assoc]

theorem settlementWrap_mentions_inner (m : List CoreMessage)
    (t : Option (List ToolDefinition)) (c : Option (List (String × JValue)))
    (inner : ErrVal) (h : inner.isErrorInstance = true) :
    msgMentions (settlementWrap m t c inner).message inner.message := by
  refine ⟨("AI SDK stream completed without generating any chunks. Messages: " ++
    toString m.length ++ ", Tools: " ++ toString (toolsCountDisplay t) ++
    ", ContextData keys: " ++ contextKeysDisplay c ++
    ". Error getting final result: ").data, [], ?_⟩
  simp [settlementWrap, ErrVal.message, h, String.data_append, List.append_assoc]

/-- C5: with zero fragments, a final text empty after trimming and at
least one tool invocation, the text is re-read after the fixed 1-second
grace delay: a now non-empty text is yielded as the single fragment
(success); a still-empty text, or a rejecting re-read, raises a
classified error whose message states the tool-invocation count and the
finish-reason tag, with "unknown" substituted for a falsy finish
reason. -/
theorem streamMessage_no_text_after_tools (params : SendMessageParams)
    (result : StreamTextResult) (tm : Option (List (String × AiSdkTool)))
    (fr s : String) (l : List JValue) (t1 t2 t3 : Nat)
    (hb : buildTools params.contextData params.tools = Except.ok tm)
    (h1 : result.textStream = [])
    (h2 : ∀ p ∈ result.fullStream, p = FullStreamPart.otherPart)
    (hfr : result.finishReason = Settled.resolvesAt fr t1)
    (hd1 : t1 < finishReasonTimeoutMs)
    (htx : result.textRead = Settled.resolvesAt s t2)
    (hd2 : t2 < textTimeoutMs)
    (htc : result.toolCalls = Settled.resolvesAt (JValue.arr l) t3)
    (hd3 : t3 < toolCallsTimeoutMs)
    (hempty : (jsTrim s).length = 0)
    (hl : l ≠ []) :
    (∀ (s2 : String) (t4 : Nat), result.textReread = Settled.resolvesAt s2 t4 →
      (jsTrim s2).length ≠ 0 →
      streamMessage params (Except.ok result) = StreamOutcome.success [s2]) ∧
    (∀ (s2 : String) (t4 : Nat), result.textReread = Settled.resolvesAt s2 t4 →
      (jsTrim s2).length = 0 →
      ∃ err : ErrVal,
        streamMessage params (Except.ok result) = StreamOutcome.failure [] err ∧
        err.isAiSdkError = true ∧
        msgMentions err.message ("ToolCalls: " ++ toString l.length) ∧
        msgMentions err.message ("FinishReason: " ++ finishReasonDisplay fr)) ∧
    (∀ (e2 : ErrVal) (t4 : Nat), result.textReread = Settled.rejectsAt e2 t4 →
      ∃ err : ErrVal,
        streamMessage params (Except.ok result) = StreamOutcome.failure [] err ∧
        err.isAiSdkError = true ∧
        msgMentions err.message ("ToolCalls: " ++ toString l.length) ∧
        msgMentions err.message ("FinishReason: " ++ finishReasonDisplay fr)) ∧
    finishReasonDisplay "" = "unknown" ∧
    (∀ fr2 : String, fr2 ≠ "" → finishReasonDisplay fr2 = fr2) ∧
    graceDelayMs = 1000 := by
  have hr : settleRaces result = Except.ok (fr, s, JValue.arr l) :=
    settleRaces_resolves result fr s (JValue.arr l) t1 t2 t3 hfr hd1 htx hd2 htc hd3
  have hsf : jsTextTruthy s = false := by
    rw [jsTextTruthy_eq]; simp [hempty]
  have htcp : toolCallsPresent (JValue.arr l) = true := by
    match l with
    | [] => exact absurd rfl hl
    | x :: xs =>
      simp [toolCallsPresent, JValue.truthy, jsLengthVal]
      omega
  have hnum : jsToString (jsLengthVal (JValue.arr l)) = toString l.length := rfl
  refine ⟨?_, ?_, ?_, rfl, fun fr2 h => by simp [finishReasonDisplay, h], rfl⟩
  · intro s2 t4 hre hs2
    have hst : jsTextTruthy s2 = true := by
      rw [jsTextTruthy_eq]; exact decide_eq_true hs2
    exact streamMessage_yielded_surfaces params result tm s2 hb h1 h2
      (by simp [settlement, settlementInner, hr, hsf, htcp, hre, hst])
  · intro s2 t4 hre hs2
    have hst : jsTextTruthy s2 = false := by
      rw [jsTextTruthy_eq]; simp [hs2]
    refine ⟨settlementWrap
        (assembleMessages (params.conversationHistory.getD []) params.text
          params.contextData) params.tools params.contextData
        (delayedCatchErr (JValue.arr l) fr
          (ErrVal.aiSdk (noTextAfterToolsMsg (JValue.arr l) fr) none none)),
      ?_, rfl, ?_, ?_⟩
    · exact streamMessage_raised_surfaces params result tm _ hb h1 h2
        (by simp [settlement, settlementInner, hr, hsf, htcp, hre, hst])
    · exact msgMentions_trans (hnum ▸ noTextMsg_mentions_toolCalls (JValue.arr l) fr)
        (msgMentions_trans (delayedCatchErr_mentions_noText (JValue.arr l) fr _)
          (settlementWrap_mentions_inner _ _ _ _ rfl))
    · exact msgMentions_trans (noTextMsg_mentions_finishReason (JValue.arr l) fr)
        (msgMentions_trans (delayedCatchErr_mentions_noText (JValue.arr l) fr _)
          (settlementWrap_mentions_inner _ _ _ _ rfl))
  · intro e2 t4 hre
    refine ⟨settlementWrap
        (assembleMessages (params.conversationHistory.getD []) params.text
          params.contextData) params.tools params.contextData
        (delayedCatchErr (JValue.arr l) fr e2),
      ?_, rfl, ?_, ?_⟩
    · exact streamMessage_raised_surfaces params result tm _ hb h1 h2
        (by simp [settlement, settlementInner, hr, hsf, htcp, hre])
    · exact msgMentions_trans (hnum ▸ noTextMsg_mentions_toolCalls (JValue.arr l) fr)
        (msgMentions_trans (delayedCatchErr_mentions_noText (JValue.arr l) fr e2)
          (settlementWrap_mentions_inner _ _ _ _ rfl))
    · exact msgMentions_trans (noTextMsg_mentions_finishReason (JValue.arr l) fr)
        (msgMentions_trans (delayedCatchErr_mentions_noText (JValue.arr l) fr e2)
          (settlementWrap_mentions_inner _ _ _ _ rfl))

/-- Witness for `streamMessage_no_text_after_tools`: one tool call, the
delayed re-read delivers text. -/
theorem streamMessage_no_text_after_tools_witness :
    streamMessage { userId := "u", text := "hi" }
      (Except.ok
        { textStream := []
          fullStream := []
          finishReason := Settled.resolvesAt "tool-calls" 0
          textRead := Settled.resolvesAt " " 0
          textReread := Settled.resolvesAt "Delayed" 0
          toolCalls := Settled.resolvesAt (JValue.arr [JValue.obj []]) 0 }) =
      StreamOutcome.success ["Delayed"] :=
  (streamMessage_no_text_after_tools { userId := "u", text := "hi" } _ none
    "tool-calls" " " [JValue.obj []] 0 0 0 rfl rfl
    (by intro p hp; simp at hp) rfl (by decide) rfl (by decide) rfl (by decide)
    (by decide) (List.cons_ne_nil _ _)).1 "Delayed" 0 rfl (by decide)

/-- C6: in the settlement tier the finish-reason value is raced against a
5-second deadline and the final-text and tool-invocations values against
30-second deadlines each; whenever one of them fails to settle strictly
before its deadline, the classified timeout error is raised to the caller
(wrapped once by the settlement tier's catch), so no await of the tier
other than the grace re-read is unbounded. -/
theorem streamMessage_settlement_timeouts (params : SendMessageParams)
    (result : StreamTextResult) (tm : Option (List (String × AiSdkTool)))
    (hb : buildTools params.contextData params.tools = Except.ok tm)
    (h1 : result.textStream = [])
    (h2 : ∀ p ∈ result.fullStream, p = FullStreamPart.otherPart) :
    (finishReasonTimeoutMs = 5000 ∧ textTimeoutMs = 30000 ∧
      toolCallsTimeoutMs = 30000) ∧
    (settleFailsBy result.finishReason finishReasonTimeoutMs →
      streamMessage params (Except.ok result) = StreamOutcome.failure []
        (settlementWrap
          (assembleMessages (params.conversationHistory.getD []) params.text
            params.contextData) params.tools params.contextData
          (ErrVal.aiSdk "Timeout waiting for result.finishReason" none none))) ∧
    (∀ (fr : String) (t1 : Nat),
      result.finishReason = Settled.resolvesAt fr t1 → t1 < finishReasonTimeoutMs →
      settleFailsBy result.textRead textTimeoutMs →
      streamMessage params (Except.ok result) = StreamOutcome.failure []
        (settlementWrap
          (assembleMessages (params.conversationHistory.getD []) params.text
            params.contextData) params.tools params.contextData
          (ErrVal.aiSdk "Timeout waiting for result.text" none none))) ∧
    (∀ (fr s : String) (t1 t2 : Nat),
      result.finishReason = Settled.resolvesAt fr t1 → t1 < finishReasonTimeoutMs →
      result.textRead = Settled.resolvesAt s t2 → t2 < textTimeoutMs →
      settleFailsBy result.toolCalls toolCallsTimeoutMs →
      streamMessage params (Except.ok result) = StreamOutcome.failure []
        (settlementWrap
          (assembleMessages (params.conversationHistory.getD []) params.text
            params.contextData) params.tools params.contextData
          (ErrVal.aiSdk "Timeout waiting for result.toolCalls" none none))) := by
  refine ⟨⟨rfl, rfl, rfl⟩, ?_, ?_, ?_⟩
  · intro hfail
    exact streamMessage_raised_surfaces params result tm _ hb h1 h2
      (by simp [settlement, settlementInner, settleRaces,
        race_of_timeout _ _ _ hfail]; rfl)
  · intro fr t1 hfr hd1 hfail
    exact streamMessage_raised_surfaces params result tm _ hb h1 h2
      (by simp [settlement, settlementInner, settleRaces, hfr,
        race_of_resolves _ _ _ _ hd1, race_of_timeout _ _ _ hfail]; rfl)
  · intro fr s t1 t2 hfr hd1 htx hd2 hfail
    exact streamMessage_raised_surfaces params result tm _ hb h1 h2
      (by simp [settlement, settlementInner, settleRaces, hfr, htx,
        race_of_resolves _ _ _ _ hd1, race_of_resolves _ _ _ _ hd2,
        race_of_timeout _ _ _ hfail]; rfl)

/-- Witness for `streamMessage_settlement_timeouts`: a finish-reason
value that never settles. -/
theorem streamMessage_settlement_timeouts_witness :
    streamMessage { userId := "u", text := "hi" }
      (Except.ok
        { textStream := []
          fullStream := []
          finishReason := Settled.never
          textRead := Settled.resolvesAt "x" 0
          textReread := Settled.never
          toolCalls := Settled.resolvesAt (JValue.arr []) 0 }) =
      StreamOutcome.failure []
        (settlementWrap (assembleMessages [] "hi" none) none none
          (ErrVal.aiSdk "Timeout waiting for result.finishReason" none none)) :=
  (streamMessage_settlement_timeouts { userId := "u", text := "hi" } _ none rfl rfl
    (by intro p hp; simp at hp)).2.1 trivial

theorem jsGetProp_of_not_nullish (v : JValue) (k : String)
    (h1 : v ≠ JValue.null) (h2 : v ≠ JValue.undefined) :
    jsGetProp v k = Except.ok (jsGetPropOpt v k) := by
  cases v with
  | null => exact absurd rfl h1
  | undefined => exact absurd rfl h2
  | bool b => rfl
  | num n => rfl
  | str s => rfl
  | arr xs => rfl
  | obj fields => rfl

theorem except_bind_ok {ε α β : Type} (a : α) (f : α → Except ε β) :
    (Except.ok a >>= f : Except ε β) = f a := rfl

theorem jsonSchemaToZodStep_ok (reqList : List JValue)
    (acc : List (String × ZodField)) (p : String × JValue)
    (h1 : p.2 ≠ JValue.null) (h2 : p.2 ≠ JValue.undefined) :
    jsonSchemaToZodStep (JValue.arr reqList) acc p =
      Except.ok (assocInsert acc p.1 (mkPropField reqList p)) := by
  have hty := jsGetProp_of_not_nullish p.2 "type" h1 h2
  have hit := jsGetProp_of_not_nullish p.2 "items" h1 h2
  by_cases hs : (jsGetPropOpt p.2 "type").isStr "string"
  · simp [jsonSchemaToZodStep, except_bind_ok, hty, hit, jsIncludes, mkPropField, propBaseOf, hs]
  · by_cases hn : (jsGetPropOpt p.2 "type").isStr "number"
    · simp [jsonSchemaToZodStep, except_bind_ok, hty, hit, jsIncludes, mkPropField, propBaseOf, hs, hn]
    · by_cases hb : (jsGetPropOpt p.2 "type").isStr "boolean"
      · simp [jsonSchemaToZodStep, except_bind_ok, hty, hit, jsIncludes, mkPropField, propBaseOf,
          hs, hn, hb]
      · by_cases ha : (jsGetPropOpt p.2 "type").isStr "array"
        · by_cases his : (jsGetPropOpt (jsGetPropOpt p.2 "items") "type").isStr "string"
          · simp [jsonSchemaToZodStep, except_bind_ok, hty, hit, jsIncludes, mkPropField, propBaseOf,
              hs, hn, hb, ha, his]
          · by_cases hin : (jsGetPropOpt (jsGetPropOpt p.2 "items") "type").isStr "number"
            · simp [jsonSchemaToZodStep, except_bind_ok, hty, hit, jsIncludes, mkPropField, propBaseOf,
                hs, hn, hb, ha, his, hin]
            · simp [jsonSchemaToZodStep, except_bind_ok, hty, hit, jsIncludes, mkPropField, propBaseOf,
                hs, hn, hb, ha, his, hin]
        · simp [jsonSchemaToZodStep, except_bind_ok, hty, hit, jsIncludes, mkPropField, propBaseOf,
            hs, hn, hb, ha]

theorem foldlM_jsonSchemaToZodStep (reqList : List JValue) :
    ∀ (l : List (String × JValue)) (acc : List (String × ZodField)),
    (∀ p ∈ l, p.2 ≠ JValue.null ∧ p.2 ≠ JValue.undefined) →
    l.foldlM (jsonSchemaToZodStep (JValue.arr reqList)) acc =
      Except.ok (l.foldl (fun acc p => assocInsert acc p.1 (mkPropField reqList p)) acc) := by
  intro l
  induction l with
  | nil => intro acc _; rfl
  | cons p ps ih =>
    intro acc h
    have hp := h p (List.mem_cons_self p ps)
    rw [List.foldlM_cons, jsonSchemaToZodStep_ok reqList acc p hp.1 hp.2]
    simp only [List.foldl_cons]
    exact ih _ (fun q hq => h q (List.mem_cons_of_mem _ hq))

theorem assocInsert_of_fresh {α : Type} (acc : List (String × α)) (k : String) (v : α)
    (h : ∀ q ∈ acc, q.1 ≠ k) : assocInsert acc k v = acc ++ [(k, v)] := by
  unfold assocInsert
  rw [if_neg]
  intro hc
  rw [List.any_eq_true] at hc
  obtain ⟨q, hq, hqk⟩ := hc
  exact h q hq (by simpa using hqk)

theorem foldl_assocInsert_fresh {α : Type} (f : String × JValue → α) :
    ∀ (l : List (String × JValue)) (acc : List (String × α)),
    (l.map Prod.fst).Nodup →
    (∀ p ∈ l, ∀ q ∈ acc, q.1 ≠ p.1) →
    l.foldl (fun acc p => assocInsert acc p.1 (f p)) acc =
      acc ++ l.map (fun p => (p.1, f p)) := by
  intro l
  induction l with
  | nil => intro acc _ _; simp
  | cons p ps ih =>
    intro acc hnd hfresh
    have hnd' : p.1 ∉ ps.map Prod.fst ∧ (ps.map Prod.fst).Nodup := by
      rw [List.map_cons, List.nodup_cons] at hnd; exact hnd
    rw [List.foldl_cons,
      assocInsert_of_fresh acc p.1 (f p) (hfresh p (List.mem_cons_self p ps))]
    rw [ih (acc ++ [(p.1, f p)]) hnd'.2 ?_]
    · simp
    · intro r hr q hq
      rcases List.mem_append.1 hq with hq | hq
      · exact hfresh r (List.mem_cons_of_mem _ hr) q hq
      · rw [List.mem_singleton.1 hq]
        intro hc
        exact hnd'.1 (hc ▸ List.mem_map_of_mem Prod.fst hr)

theorem zodFieldAccepts_eq_spec (reqList : List JValue)
    (o : List (String × JValue)) (p : String × JValue) :
    zodFieldAccepts (mkPropField reqList p) (jsGet o p.1) =
      specPropertyAccepts reqList o p.1 p.2 := by
  unfold mkPropField propBaseOf specPropertyAccepts zodFieldAccepts
  by_cases hs : (jsGetPropOpt p.2 "type").isStr "string"
  · simp only [hs, ite_true]
    cases hr : reqList.any (fun x => x.isStr p.1) <;>
      cases hv : jsGet o p.1 <;> simp [hr, hv, zodBaseAccepts]
  · by_cases hn : (jsGetPropOpt p.2 "type").isStr "number"
    · simp only [hs, hn, ite_true, ite_false]
      cases hr : reqList.any (fun x => x.isStr p.1) <;>
        cases hv : jsGet o p.1 <;> simp [hr, hv, zodBaseAccepts]
    · by_cases hb : (jsGetPropOpt p.2 "type").isStr "boolean"
      · simp only [hs, hn, hb, ite_true, ite_false]
        cases hr : reqList.any (fun x => x.isStr p.1) <;>
          cases hv : jsGet o p.1 <;> simp [hr, hv, zodBaseAccepts]
      · by_cases ha : (jsGetPropOpt p.2 "type").isStr "array"
        · by_cases his : (jsGetPropOpt (jsGetPropOpt p.2 "items") "type").isStr "string"
          · simp only [hs, hn, hb, ha, his, ite_true, ite_false]
            cases hr : reqList.any (fun x => x.isStr p.1) <;>
              cases hv : jsGet o p.1 <;> simp [hr, hv, zodBaseAccepts] <;>
              (apply congrArg; funext x; cases x <;> rfl)
          · by_cases hin :
              (jsGetPropOpt (jsGetPropOpt p.2 "items") "type").isStr "number"
            · simp only [hs, hn, hb, ha, his, hin, ite_true, ite_false]
              cases hr : reqList.any (fun x => x.isStr p.1) <;>
                cases hv : jsGet o p.1 <;> simp [hr, hv, zodBaseAccepts] <;>
                (apply congrArg; funext x; cases x <;> rfl)
            · simp only [hs, hn, hb, ha, his, hin, ite_true, ite_false]
              cases hr : reqList.any (fun x => x.isStr p.1) <;>
                cases hv : jsGet o p.1 <;> simp [hr, hv, zodBaseAccepts] <;>
                (intro x _; rfl)
        · simp only [hs, hn, hb, ha, ite_true, ite_false]
          cases hr : reqList.any (fun x => x.isStr p.1) <;>
            cases hv : jsGet o p.1 <;> simp [hr, hv, zodBaseAccepts]

theorem map_fst_replace {α : Type} (l : List (String × α)) (k : String) (v : α) :
    (l.map (fun p => if p.1 = k then (k, v) else p)).map Prod.fst = l.map Prod.fst := by
  induction l with
  | nil => rfl
  | cons p ps ih => by_cases hp : p.1 = k <;> simp [hp, ih]

theorem lookup_replace_self {α : Type} (k : String) (v : α) :
    ∀ l : List (String × α), l.any (fun p => p.1 = k) = true →
    (l.map (fun p => if p.1 = k then (k, v) else p)).lookup k = some v := by
  intro l
  induction l with
  | nil => intro h; cases h
  | cons p ps ih =>
    intro h
    obtain ⟨p1, p2⟩ := p
    simp only [List.map_cons]
    by_cases hp : p1 = k
    · subst hp
      rw [if_pos rfl]
      simp [List.lookup]
    · rw [if_neg hp]
      have hkp : (k == p1) = false := beq_eq_false_iff_ne.2 (fun hc => hp hc.symm)
      have hrest : ps.any (fun q => q.1 = k) = true := by
        rw [List.any_cons] at h
        simpa [hp] using h
      simp only [List.lookup, hkp]
      exact ih hrest

theorem lookup_replace_ne {α : Type} (k k' : String) (v : α) (hne : k' ≠ k) :
    ∀ l : List (String × α),
    (l.map (fun p => if p.1 = k then (k, v) else p)).lookup k' = l.lookup k' := by
  intro l
  induction l with
  | nil => rfl
  | cons p ps ih =>
    obtain ⟨p1, p2⟩ := p
    simp only [List.map_cons]
    by_cases hp : p1 = k
    · subst hp
      rw [if_pos rfl]
      have hk : (k' == p1) = false := beq_eq_false_iff_ne.2 hne
      simp only [List.lookup, hk]
      exact ih
    · rw [if_neg hp]
      simp only [List.lookup]
      cases k' == p1 with
      | true => rfl
      | false => exact ih

theorem lookup_append_single_self {α : Type} (k : String) (v : α) :
    ∀ l : List (String × α), l.any (fun p => p.1 = k) = false →
    (l ++ [(k, v)]).lookup k = some v := by
  intro l
  induction l with
  | nil => intro _; simp [List.lookup]
  | cons p ps ih =>
    intro h
    obtain ⟨p1, p2⟩ := p
    rw [List.any_cons] at h
    have hp : ¬(p1 = k) := by
      intro hc
      simp [hc] at h
    have hrest : ps.any (fun q => q.1 = k) = false := by
      simpa [hp] using h
    have hkp : (k == p1) = false := beq_eq_false_iff_ne.2 (fun hc => hp hc.symm)
    simp only [List.cons_append, List.lookup, hkp]
    exact ih hrest

theorem lookup_append_single_ne {α : Type} (k k' : String) (v : α) (hne : k' ≠ k) :
    ∀ l : List (String × α), (l ++ [(k, v)]).lookup k' = l.lookup k' := by
  intro l
  induction l with
  | nil =>
    have hk : (k' == k) = false := beq_eq_false_iff_ne.2 hne
    simp [List.lookup, hk]
  | cons p ps ih =>
    obtain ⟨p1, p2⟩ := p
    simp only [List.cons_append, List.lookup]
    cases k' == p1 with
    | true => rfl
    | false => exact ih

theorem lookup_assocInsert_self {α : Type} (f : List (String × α)) (k : String) (v : α) :
    (assocInsert f k v).lookup k = some v := by
  unfold assocInsert
  split
  · next h => exact lookup_replace_self k v f h
  · next h => exact lookup_append_single_self k v f (by rwa [Bool.not_eq_true] at h)

theorem lookup_assocInsert_ne {α : Type} (f : List (String × α)) (k k' : String)
    (v : α) (hne : k' ≠ k) :
    (assocInsert f k v).lookup k' = f.lookup k' := by
  unfold assocInsert
  split
  · exact lookup_replace_ne k k' v hne f
  · exact lookup_append_single_ne k k' v hne f

theorem mem_keys_assocInsert {α : Type} (f : List (String × α)) (k : String)
    (v : α) (n : String) :
    n ∈ (assocInsert f k v).map Prod.fst ↔ n = k ∨ n ∈ f.map Prod.fst := by
  unfold assocInsert
  split
  · next h =>
    rw [map_fst_replace]
    constructor
    · exact Or.inr
    · rintro (rfl | hm)
      · rw [List.any_eq_true] at h
        obtain ⟨p, hp, hpk⟩ := h
        have hpk' : p.1 = n := by simpa using hpk
        exact hpk' ▸ List.mem_map_of_mem Prod.fst hp
      · exact hm
  · simp [List.map_append, or_comm]

theorem nodup_keys_assocInsert {α : Type} (f : List (String × α)) (k : String)
    (v : α) (h : (f.map Prod.fst).Nodup) :
    ((assocInsert f k v).map Prod.fst).Nodup := by
  unfold assocInsert
  split
  · next _ => rw [map_fst_replace]; exact h
  · next hc =>
    rw [List.map_append]
    have hk : k ∉ f.map Prod.fst := by
      intro hm
      rw [List.mem_map] at hm
      obtain ⟨p, hp, hpk⟩ := hm
      exact hc (by rw [List.any_eq_true]; exact ⟨p, hp, by simp [hpk]⟩)
    simp [List.nodup_append, h, hk]

theorem fromEntries_append_singleton {α : Type} (es : List (String × α))
    (p : String × α) :
    fromEntries (es ++ [p]) = assocInsert (fromEntries es) p.1 p.2 := by
  simp [fromEntries, List.foldl_append]

theorem lookup_fromEntries {α : Type} (n : String) (es : List (String × α)) :
    (fromEntries es).lookup n =
      (es.reverse.find? (fun q => q.1 == n)).map Prod.snd := by
  induction es using List.reverseRecOn with
  | nil => rfl
  | append_singleton es p ih =>
    rw [fromEntries_append_singleton, List.reverse_append]
    simp only [List.reverse_singleton, List.singleton_append]
    by_cases hp : p.1 = n
    · rw [hp, lookup_assocInsert_self]
      rw [List.find?_cons_of_pos _ (by simp [hp])]
      rfl
    · rw [lookup_assocInsert_ne _ _ _ _ (fun hc => hp hc.symm), ih]
      rw [List.find?_cons_of_neg _ (by simp [hp])]

theorem mem_keys_fromEntries {α : Type} (n : String) (es : List (String × α)) :
    n ∈ (fromEntries es).map Prod.fst ↔ n ∈ es.map Prod.fst := by
  induction es using List.reverseRecOn with
  | nil => exact Iff.rfl
  | append_singleton es p ih =>
    rw [fromEntries_append_singleton, mem_keys_assocInsert, ih]
    simp [or_comm]

theorem nodup_keys_fromEntries {α : Type} (es : List (String × α)) :
    ((fromEntries es).map Prod.fst).Nodup := by
  induction es using List.reverseRecOn with
  | nil => exact List.nodup_nil
  | append_singleton es p ih =>
    rw [fromEntries_append_singleton]
    exact nodup_keys_assocInsert _ _ _ ih

theorem mem_of_lookup_fromEntries {α : Type} (n : String) (v : α)
    (es : List (String × α)) (h : (fromEntries es).lookup n = some v) :
    (n, v) ∈ es := by
  rw [lookup_fromEntries] at h
  cases hf : es.reverse.find? (fun q => q.1 == n) with
  | none => rw [hf] at h; cases h
  | some q =>
    rw [hf] at h
    have hq1 : q.1 = n := by
      have h2 := @List.find?_some (String × α) (fun q' => q'.1 == n) q es.reverse hf
      simpa using h2
    have hqm : q ∈ es.reverse := List.mem_of_find?_eq_some hf
    have hq2 : q.2 = v := by simpa using h
    have : q = (n, v) := by
      obtain ⟨a, b⟩ := q
      simp only at hq1 hq2
      rw [hq1, hq2]
    rw [← this]
    exact List.mem_reverse.1 hqm

theorem buildToolEntries_ok (cd : Option (List (String × JValue))) :
    ∀ (ts : List ToolDefinition) (es : List (String × AiSdkTool)),
    buildToolEntries cd ts = Except.ok es →
    List.Forall₂ (fun (d : ToolDefinition) (q : String × AiSdkTool) =>
      q.1 = d.name ∧ ∃ z, jsonSchemaToZod d.parameters = Except.ok z ∧
        q.2 = { description := d.description, parameters := z,
                executeResult := executeTool cd d.name }) ts es := by
  intro ts
  induction ts with
  | nil =>
    intro es h
    cases h
    exact List.Forall₂.nil
  | cons d ds ih =>
    intro es h
    unfold buildToolEntries at h
    cases hz : jsonSchemaToZod d.parameters with
    | error e => rw [hz] at h; cases h
    | ok z =>
      rw [hz] at h
      cases he : buildToolEntries cd ds with
      | error e => rw [he] at h; cases h
      | ok es' =>
        rw [he] at h
        cases h
        exact List.Forall₂.cons ⟨rfl, z, hz, rfl⟩ (ih es' he)

theorem forall₂_mem_right {α β : Type} {R : α → β → Prop} :
    ∀ {l₁ : List α} {l₂ : List β}, List.Forall₂ R l₁ l₂ →
    ∀ b ∈ l₂, ∃ a ∈ l₁, R a b := by
  intro l₁ l₂ h
  induction h with
  | nil => intro b hb; cases hb
  | cons hr _ ih =>
    intro b hb
    rcases List.mem_cons.1 hb with rfl | hb
    · exact ⟨_, List.mem_cons_self _ _, hr⟩
    · obtain ⟨a, ha, har⟩ := ih b hb
      exact ⟨a, List.mem_cons_of_mem _ ha, har⟩

theorem forall₂_map_eq {α β γ : Type} {R : α → β → Prop}
    (f : α → γ) (g : β → γ) (hfg : ∀ a b, R a b → g b = f a) :
    ∀ {l₁ : List α} {l₂ : List β}, List.Forall₂ R l₁ l₂ →
    l₂.map g = l₁.map f := by
  intro l₁ l₂ h
  induction h with
  | nil => rfl
  | cons hr _ ih => simp [ih, hfg _ _ hr]

theorem forall₂_find? {α β : Type} {R : α → β → Prop}
    (p : α → Bool) (q : β → Bool) (hpq : ∀ a b, R a b → p a = q b) :
    ∀ {l₁ : List α} {l₂ : List β}, List.Forall₂ R l₁ l₂ →
    (l₁.find? p = none ∧ l₂.find? q = none) ∨
      ∃ a b, l₁.find? p = some a ∧ l₂.find? q = some b ∧ R a b := by
  intro l₁ l₂ h
  induction h with
  | nil => exact Or.inl ⟨rfl, rfl⟩
  | cons hr ht ih =>
    rename_i a b l₁ l₂
    cases hpa : p a with
    | false =>
      have hqb : q b = false := by rw [← hpq _ _ hr]; exact hpa
      rw [List.find?_cons_of_neg _ (by simp [hpa]),
        List.find?_cons_of_neg _ (by simp [hqb])]
      exact ih
    | true =>
      have hqb : q b = true := by rw [← hpq _ _ hr]; exact hpa
      exact Or.inr ⟨a, b, List.find?_cons_of_pos _ hpa,
        List.find?_cons_of_pos _ hqb, hr⟩

theorem buildTools_ok_entries (cd : Option (List (String × JValue)))
    (ts : List ToolDefinition) (m : List (String × AiSdkTool))
    (hb : buildTools cd (some ts) = Except.ok (some m)) :
    ∃ es, buildToolEntries cd ts = Except.ok es ∧ m = fromEntries es := by
  have hb' : (match buildToolEntries cd ts with
      | Except.error e =>
          (Except.error e : Except String (Option (List (String × AiSdkTool))))
      | Except.ok entries => Except.ok (some (fromEntries entries))) =
      Except.ok (some m) := hb
  cases he : buildToolEntries cd ts with
  | error e => rw [he] at hb'; cases hb'
  | ok es => rw [he] at hb'; cases hb'; exact ⟨es, rfl, rfl⟩

/-- C10: the tool mapping passed to the provider has exactly one entry
per declared name (its key list is duplicate-free), its key set equals
the set of declared names, and the entry for a name is built from the
LAST declaration with that name in the list — later declarations
overwrite earlier ones, exactly as `Object.fromEntries` does. -/
theorem buildTools_last_wins (cd : Option (List (String × JValue)))
    (ts : List ToolDefinition) (m : List (String × AiSdkTool))
    (hb : buildTools cd (some ts) = Except.ok (some m)) :
    (m.map Prod.fst).Nodup ∧
    (∀ n, n ∈ m.map Prod.fst ↔ n ∈ ts.map ToolDefinition.name) ∧
    (∀ n d, ts.reverse.find? (fun e => e.name == n) = some d →
      ∃ z, jsonSchemaToZod d.parameters = Except.ok z ∧
        m.lookup n = some { description := d.description, parameters := z,
                            executeResult := executeTool cd d.name }) := by
  obtain ⟨es, hes, rfl⟩ := buildTools_ok_entries cd ts m hb
  have hF := buildToolEntries_ok cd ts es hes
  refine ⟨nodup_keys_fromEntries es, ?_, ?_⟩
  · intro n
    rw [mem_keys_fromEntries,
      forall₂_map_eq ToolDefinition.name Prod.fst (fun d q h => h.1) hF]
  · intro n d hfind
    have hrev := List.forall₂_reverse_iff.2 hF
    rcases forall₂_find? (fun e => e.name == n) (fun q => q.1 == n)
      (fun a b hr => by show (a.name == n) = (b.1 == n); rw [hr.1]) hrev with
      ⟨h1, _⟩ | ⟨a, b, h1, h2, hr⟩
    · rw [hfind] at h1; cases h1
    · rw [hfind] at h1
      cases h1
      obtain ⟨hname, z, hz, htool⟩ := hr
      refine ⟨z, hz, ?_⟩
      rw [lookup_fromEntries, h2]
      simp [htool]

/-- Witness for `buildTools_last_wins`: two declarations named `t`; the
mapping has the single entry built from the second one. -/
theorem buildTools_last_wins_witness :
    ∃ z, jsonSchemaToZod JValue.undefined = Except.ok z ∧
      List.lookup "t"
        [("t", { description := "second", parameters := { shape := [] },
                 executeResult := executeTool none "t" : AiSdkTool })] =
        some { description := "second", parameters := z,
               executeResult := executeTool none "t" } :=
  (buildTools_last_wins none
    [{ name := "t", description := "first", parameters := JValue.undefined },
     { name := "t", description := "second", parameters := JValue.undefined }]
    [("t", { description := "second", parameters := { shape := [] },
             executeResult := executeTool none "t" })] rfl).2.2 "t"
    { name := "t", description := "second", parameters := JValue.undefined } rfl

/-- C8 counterexample: a declaration whose parameter schema makes
`jsonSchemaToZod` throw (`required: 1`) aborts the whole adapter build,
so NO callable tool is registered and `streamMessage` fails before the
provider is even invoked — the raw (unclassified) `TypeError` escapes. -/
theorem buildTools_throwing_schema_cex :
    buildTools none (some [{ name := "toolA", description := "d",
                             parameters := badRequiredSchema }]) =
      Except.error "TypeError: required.includes is not a function" ∧
    streamMessage { userId := "u", text := "hi",
                    tools := some [{ name := "toolA", description := "d",
                                     parameters := badRequiredSchema }] }
      (Except.ok { textStream := ["never reached"], fullStream := [],
                   finishReason := Settled.never, textRead := Settled.never,
                   textReread := Settled.never, toolCalls := Settled.never }) =
      StreamOutcome.failure []
        (ErrVal.jsError "TypeError: required.includes is not a function") :=
  ⟨rfl, rfl⟩

/-- C8 (amended): provided every declaration's parameter schema converts
without throwing (`buildTools` succeeds), a callable tool is registered
for every declaration — its name is a key of the mapping and the
registered tool's `execute` result is `executeTool` of the captured
`contextData` and the tool's name.  `execute` itself never throws and is
a pure function of the captured snapshot (`executeTool` is total and
deterministic): it returns the `contextData` value for the tool's name
whenever that value is present and neither `null` nor `undefined`, and
the sentinel `{error: "Data should be pre-fetched by Chat Service"}`
otherwise — also when no `contextData` was supplied at all. -/
theorem toolAdapter_registration_and_execute :
    (∀ (cd : Option (List (String × JValue))) (ts : List ToolDefinition)
       (m : List (String × AiSdkTool)) (d : ToolDefinition),
      buildTools cd (some ts) = Except.ok (some m) → d ∈ ts →
      d.name ∈ m.map Prod.fst ∧
      ∀ tl, m.lookup d.name = some tl →
        tl.executeResult = executeTool cd d.name) ∧
    (∀ (l : List (String × JValue)) (n : String) (v : JValue),
      l.lookup n = some v → v ≠ JValue.null → v ≠ JValue.undefined →
      executeTool (some l) n = v) ∧
    (∀ (l : List (String × JValue)) (n : String),
      (l.lookup n = none ∨ l.lookup n = some JValue.null ∨
        l.lookup n = some JValue.undefined) →
      executeTool (some l) n =
        JValue.obj [("error", JValue.str "Data should be pre-fetched by Chat Service")]) ∧
    (∀ n : String, executeTool none n =
      JValue.obj [("error", JValue.str "Data should be pre-fetched by Chat Service")]) := by
  refine ⟨?_, ?_, ?_, fun n => rfl⟩
  · intro cd ts m d hb hd
    obtain ⟨es, hes, rfl⟩ := buildTools_ok_entries cd ts m hb
    have hF := buildToolEntries_ok cd ts es hes
    constructor
    · rw [mem_keys_fromEntries,
        forall₂_map_eq ToolDefinition.name Prod.fst (fun d' q h => h.1) hF]
      exact List.mem_map_of_mem ToolDefinition.name hd
    · intro tl hl
      have hmem := mem_of_lookup_fromEntries d.name tl es hl
      obtain ⟨d', _, hr⟩ := forall₂_mem_right hF (d.name, tl) hmem
      obtain ⟨hname, z, hz, htool⟩ := hr
      rw [show tl = { description := d'.description, parameters := z,
                      executeResult := executeTool cd d'.name : AiSdkTool } from htool]
      show executeTool cd d'.name = executeTool cd d.name
      rw [show d.name = d'.name from hname]
  · intro l n v hl h1 h2
    unfold executeTool
    simp only [jsGet, hl]
  · intro l n h
    rcases h with h | h | h <;> simp [executeTool, jsGet, h]

/-- Witness for `toolAdapter_registration_and_execute`: a registered
tool with pre-fetched data, and `execute` returning that data. -/
theorem toolAdapter_registration_and_execute_witness :
    "getPrice" ∈ ([("getPrice",
      { description := "d", parameters := { shape := [] },
        executeResult := executeTool (some [("getPrice", JValue.num 7)]) "getPrice" :
        AiSdkTool })].map Prod.fst) ∧
    executeTool (some [("getPrice", JValue.num 7)]) "getPrice" = JValue.num 7 :=
  ⟨(toolAdapter_registration_and_execute.1 (some [("getPrice", JValue.num 7)])
      [{ name := "getPrice", description := "d", parameters := JValue.undefined }]
      [("getPrice", { description := "d", parameters := { shape := [] },
                      executeResult := executeTool (some [("getPrice", JValue.num 7)]) "getPrice" })]
      { name := "getPrice", description := "d", parameters := JValue.undefined }
      rfl (List.mem_cons_self _ _)).1,
   toolAdapter_registration_and_execute.2.1 [("getPrice", JValue.num 7)] "getPrice"
     (JValue.num 7) rfl (fun h => nomatch h) (fun h => nomatch h)⟩

/-- C7 counterexample: `jsonSchemaToZod` is not total — for the schema
`{type: "object", properties: {a: {type: "string"}}, required: 1}`
(`required` truthy but not an array), `required.includes(key)` throws a
`TypeError`, so no validator at all is produced — in particular not one
that accepts any object, as the claim requires for inputs outside its
object-shaped case. -/
theorem jsonSchemaToZod_throws_cex :
    jsonSchemaToZod badRequiredSchema =
      Except.error "TypeError: required.includes is not a function" := rfl

/-- C7 (amended): `jsonSchemaToZod` never coerces, and behaves as
follows.  Given anything falsy or not of `typeof "object"`, or an object
whose `type` is not `"object"` or whose `properties` is falsy, it
produces a validator that accepts any object.  Given an object-shaped
schema — `type: "object"`, `properties` an object whose property schemas
are not `null`/`undefined`, and a `required` field that is an array (or
falsy, treated as `[]`) — it produces a validator that accepts objects
with extra undeclared fields and rejects an object exactly when some
declared property of recognized type string/number/boolean/array is
present with a mismatching runtime type (for typed arrays: including a
wrongly-typed element) or is required and missing; a declared property
of unrecognized type never causes rejection, even when required and
missing.  Outside these inputs the function can throw (see
`jsonSchemaToZod_throws_cex`). -/
theorem all_shape_eq_spec (reqList : List JValue) (o : List (String × JValue)) :
    ∀ l : List (String × JValue),
    (l.map (fun p => (p.1, mkPropField reqList p))).all
      (fun q => zodFieldAccepts q.2 (jsGet o q.1)) =
    l.all (fun p => specPropertyAccepts reqList o p.1 p.2) := by
  intro l
  induction l with
  | nil => rfl
  | cons p ps ih =>
    simp only [List.map_cons, List.all_cons, ih, zodFieldAccepts_eq_spec]

theorem jsonSchemaToZod_characterization :
    (∀ schema : JValue, (!schema.truthy || !schema.typeofObject) = true →
      jsonSchemaToZod schema = Except.ok { shape := [] }) ∧
    (∀ fields : List (String × JValue),
      ((jsGet fields "type").isStr "object" &&
        (jsGet fields "properties").truthy) = false →
      jsonSchemaToZod (JValue.obj fields) = Except.ok { shape := [] }) ∧
    (∀ o : List (String × JValue),
      zodObjectAccepts { shape := [] } (JValue.obj o) = true) ∧
    (∀ (fields propsFields : List (String × JValue)) (reqList : List JValue),
      jsGet fields "type" = JValue.str "object" →
      jsGet fields "properties" = JValue.obj propsFields →
      (if (jsGet fields "required").truthy then jsGet fields "required"
        else JValue.arr []) = JValue.arr reqList →
      (∀ p ∈ propsFields, p.2 ≠ JValue.null ∧ p.2 ≠ JValue.undefined) →
      (propsFields.map Prod.fst).Nodup →
      ∃ z : ZodObject, jsonSchemaToZod (JValue.obj fields) = Except.ok z ∧
        ∀ o : List (String × JValue),
          zodObjectAccepts z (JValue.obj o) =
            propsFields.all (fun p => specPropertyAccepts reqList o p.1 p.2)) := by
  refine ⟨?_, ?_, fun o => rfl, ?_⟩
  · intro schema h
    simp [jsonSchemaToZod, h]
  · intro fields h
    simp [jsonSchemaToZod, jsGetPropOpt, h]
  · intro fields propsFields reqList hty hprops hreq hnn hnd
    have hfold := foldlM_jsonSchemaToZodStep reqList propsFields [] hnn
    have hshape := foldl_assocInsert_fresh (mkPropField reqList) propsFields [] hnd
      (by intro p _ q hq; exact absurd hq (List.not_mem_nil q))
    refine ⟨{ shape := propsFields.map (fun p => (p.1, mkPropField reqList p)) }, ?_, ?_⟩
    · rw [hshape] at hfold
      have e1 : jsGetPropOpt (JValue.obj fields) "type" = jsGet fields "type" := rfl
      have e2 : jsGetPropOpt (JValue.obj fields) "properties" =
        jsGet fields "properties" := rfl
      have e3 : jsGetPropOpt (JValue.obj fields) "required" =
        jsGet fields "required" := rfl
      have g1 : (!(JValue.obj fields).truthy || !(JValue.obj fields).typeofObject)
        = false := rfl
      have g2 : ((JValue.str "object").isStr "object" &&
        (JValue.obj propsFields).truthy) = true := rfl
      have e4 : jsEntries (JValue.obj propsFields) = propsFields := rfl
      simp [jsonSchemaToZod, e1, e2, e3, e4, hty, hprops, g1, g2, hreq, hfold]
    · intro o
      exact all_shape_eq_spec reqList o propsFields

/-- Witness for `jsonSchemaToZod_characterization`: a schema with a
required string property and a number property; the validator accepts an
object with the required string and an extra field, and rejects an
object missing the required property. -/
theorem jsonSchemaToZod_characterization_witness :
    ∃ z : ZodObject,
      jsonSchemaToZod (JValue.obj [("type", JValue.str "object"),
        ("properties", JValue.obj
          [("a", JValue.obj [("type", JValue.str "string")]),
           ("b", JValue.obj [("type", JValue.str "number")])]),
        ("required", JValue.arr [JValue.str "a"])]) = Except.ok z ∧
      zodObjectAccepts z
        (JValue.obj [("a", JValue.str "x"), ("extra", JValue.num 5)]) = true ∧
      zodObjectAccepts z (JValue.obj [("b", JValue.num 3)]) = false := by
  obtain ⟨z, hz, hacc⟩ := jsonSchemaToZod_characterization.2.2.2
    [("type", JValue.str "object"),
     ("properties", JValue.obj
       [("a", JValue.obj [("type", JValue.str "string")]),
        ("b", JValue.obj [("type", JValue.str "number")])]),
     ("required", JValue.arr [JValue.str "a"])]
    [("a", JValue.obj [("type", JValue.str "string")]),
     ("b", JValue.obj [("type", JValue.str "number")])]
    [JValue.str "a"] rfl rfl rfl
    (by
      intro p hp
      fin_cases hp <;> exact ⟨(fun h => nomatch h), (fun h => nomatch h)⟩)
    (by simp)
  refine ⟨z, hz, ?_, ?_⟩
  · rw [hacc]; decide
  · rw [hacc]; decide

/-- Witness for `streamMessage_error_classification`: the settlement-tier
error surfaced for a concrete empty stream, and pass-through of a
concrete already-classified error. -/
theorem streamMessage_error_classification_witness :
    streamMessage { userId := "u", text := "hi" } (Except.ok emptyStreamCexResult) =
      StreamOutcome.failure []
        (ErrVal.aiSdk emptyStreamCexOuterMsg
          (some (ErrVal.aiSdk emptyStreamCexInnerMsg none none)) none) ∧
    fromError (ErrVal.aiSdk "already classified" none none) (some "outer context") =
      ErrVal.aiSdk "already classified" none none :=
  ⟨streamMessage_error_classification.2.2.2 { userId := "u", text := "hi" }
      emptyStreamCexResult none _ rfl rfl
      (by intro p hp; simp [emptyStreamCexResult] at hp) rfl,
   streamMessage_error_classification.2.1 _ _ rfl⟩

end AiSdk
